import Mathlib

/-
Verification development for the py-qdd-model repository: a shallow embedding
of the QDD motor analysis code (loss models, thermal-equilibrium solver,
parallel grid splitter, summary analyzer and parameter validation), together
with theorems settling the specification's claims about that code.

Numeric conventions: the Python code computes with IEEE floats; the embedding
uses exact rationals (and reals where the code raises to a float power), so
every arithmetic identity below is about the ideal real-number semantics of
the formulas the code evaluates.
-/

namespace PyQdd


/-! ## Constants (src/py_qdd_model/constants.py) -/

namespace PhysicsConstants

/-- COPPER_TEMP_COEFF = 0.00393 (1/degC), constants.py. -/
def COPPER_TEMP_COEFF : ℚ := 393 / 100000

/-- REFERENCE_TEMPERATURE = 25.0 (degC), constants.py. -/
def REFERENCE_TEMPERATURE : ℚ := 25

end PhysicsConstants

namespace ModelDefaults

/-- MAX_ITERATIONS = 50, constants.py. -/
def MAX_ITERATIONS : ℕ := 50

/-- RELAXATION_FACTOR = 0.4, constants.py. -/
def RELAXATION_FACTOR : ℚ := 2 / 5

/-- CONVERGENCE_THRESHOLD = 0.05 (degC), constants.py. -/
def CONVERGENCE_THRESHOLD : ℚ := 1 / 20

/-- FALLBACK_MAX_RPM = 5000, constants.py. -/
def FALLBACK_MAX_RPM : ℚ := 5000

end ModelDefaults

/-! ## Loss models (src/py_qdd_model/models/) -/

/-- The wiring_type parameter: Literal['star', 'delta'] in schema.py. -/
inductive Wiring where
  | star : Wiring
  | delta : Wiring
deriving DecidableEq, Repr

/-- CopperLossModel.calculate_loss (models/copper_loss.py):
`factor = 3 if self.wiring_type == 'star' else 1; return factor * current**2 * phase_resistance`.
The MotorModel in src/main.py computes the same two cases with an if/elif. -/
def copperLoss (w : Wiring) (current phase_resistance : ℚ) : ℚ :=
  (if w = Wiring.star then 3 else 1) * current ^ 2 * phase_resistance

/-- DriverLossModel.calculate_loss (models/driver_loss.py):
`conduction = current**2 * on_resistance; return conduction + fixed_loss`. -/
def driverLoss (on_resistance fixed_loss current : ℚ) : ℚ :=
  current ^ 2 * on_resistance + fixed_loss

/-- GearLossModel.calculate_loss (models/gear_loss.py), per grid point.
Source: `invalid = (gear_efficiency >= 1.0) | (motor_output_power <= 0);
final = P * eff; loss = P - final; loss = where(invalid, 0, loss);
final = where(invalid, P, final); return loss, final`.
(The gear_ratio attribute of the model is never read by calculate_loss.) -/
def gearLoss (gear_efficiency P : ℚ) : ℚ × ℚ :=
  let invalid := 1 ≤ gear_efficiency ∨ P ≤ 0
  let final_output_power := P * gear_efficiency
  let loss := P - final_output_power
  (if invalid then 0 else loss, if invalid then P else final_output_power)

/-- IronLossModel.calculate_loss (models/iron_loss.py) at the configuration the
assembly MotorModel constructs in motor_model.py: kg = None and alpha left at
its default 2.0, so `kh * f_safe * |B|**alpha` specialises to the square.
`f = rpm * pole_pairs / 60; f_safe = max(f, 1e-6);
P = kh * f_safe * |B|**2 + ke * f_safe**2 * |B|**2`. -/
def ironLossQ (kh ke pole_pairs rpm Bmax : ℚ) : ℚ :=
  let f := rpm * pole_pairs / 60
  let f_safe := max f (1 / 1000000)
  kh * f_safe * |Bmax| ^ 2 + ke * f_safe ^ 2 * |Bmax| ^ 2

/-- Configuration record of IronLossModel.__init__ (models/iron_loss.py):
kh, ke, alpha (default 2.0), beta (default 1.5), optional kg, pole_pairs. -/
structure IronCfg where
  kh : ℝ
  ke : ℝ
  alpha : ℝ
  beta : ℝ
  kg : Option ℝ
  polePairs : ℝ

/-- IronLossModel.calculate_loss (models/iron_loss.py) in full generality, with
the float powers `**` embedded as real powers (Real.rpow, which like numpy
satisfies 0 ** 0 = 1 and 0 ** a = 0 for a > 0):
`f = rpm * pole_pairs / 60; f_safe = max(f, 1e-6)`;
if kg is given, `P = kg * f_safe**beta * |B|**alpha`, otherwise
`P = kh * f_safe * |B|**alpha + ke * f_safe**2 * |B|**2`
(the eddy exponent is the integer literal 2 in the source). -/
noncomputable def ironLossR (c : IronCfg) (rpm Bmax : ℝ) : ℝ :=
  let f := rpm * c.polePairs / 60
  let f_safe := max f (1 / 1000000)
  match c.kg with
  | some kg => kg * f_safe ^ c.beta * |Bmax| ^ c.alpha
  | none => c.kh * f_safe * |Bmax| ^ c.alpha + c.ke * f_safe ^ (2 : ℕ) * |Bmax| ^ (2 : ℕ)

/-! ## The assembly MotorModel (src/py_qdd_model/models/motor_model.py)

The model object fields below are the quantities MotorModel.__init__ derives
and stores; quantities that the source hard-codes ("dummy" constants in its
comments) are hard-coded here identically.  The physical constant
RPM_TO_RAD_PER_SEC = 2*pi/60 is irrational, so the development carries it as
an explicit rational argument (written `c` below); no theorem in this file
depends on its value. -/

/-- Fields of the constructed MotorModel that the analysis reads:
wiring (windings[0].wiring_type, default 'star'), the derived phase
resistance at 25 degC, the core-material loss coefficients kh / ke, the
magnet pole pairs and the simulation ambient temperature, plus the optional
assembly.override_thermal_resistance. -/
structure MModel where
  wiring : Wiring
  r25 : ℚ
  kh : ℚ
  ke : ℚ
  polePairs : ℚ
  ambient : ℚ
  overrideRth : Option ℚ
deriving DecidableEq, Repr

/-- MotorModel._estimate_flux_density returns `np.full_like(motor_rpm, 0.5)`:
the constant 0.5 at every grid point. -/
def fluxDummy : ℚ := 1 / 2

/-- MotorModel._voltage_line_values returns `np.full_like(omega, 12.0)`. -/
def voltageDummy : ℚ := 12

/-- Thermal resistance used by the loop: `assembly.override_thermal_resistance
if ... is not None else 2.0`. -/
def rthOf (m : MModel) : ℚ := m.overrideRth.getD 2

/-- Per-grid-point slice of the state dict built by
MotorModel._initialize_analysis and threaded through the solver. -/
structure MState where
  current : ℚ
  shaftRpm : ℚ
  motorRpm : ℚ
  motorOmega : ℚ
  shaftOmega : ℚ
  resistance : ℚ
  temp : ℚ
deriving DecidableEq, Repr

/-- MotorModel._initialize_analysis at one grid point (current, shaft_rpm):
motor_rpm = shaft_rpm * 1.0 (dummy gear ratio in _to_motor_rpm), omegas are
rpm * RPM_TO_RAD_PER_SEC (the conversion constant is the argument c),
phase_resistance starts at the 25 degC value and motor_temp at ambient. -/
def initState (m : MModel) (c : ℚ) (p : ℚ × ℚ) : MState :=
  { current := p.1
    shaftRpm := p.2
    motorRpm := p.2 * 1
    motorOmega := p.2 * 1 * c
    shaftOmega := p.2 * c
    resistance := m.r25
    temp := m.ambient }

/-- MotorModel._calculate_all_losses at one grid point, for flux density B:
copper from (current, phase_resistance), iron from (motor_rpm, B), driver
from current with the hard-coded DriverLossModel(0.005, 2.0), and the gear
model GearLossModel(1.0, 1.0) applied to `np.zeros_like(current)`.  Returns
(total_loss, final_output_power) where total_loss = sum of the four losses. -/
def allLosses (m : MModel) (s : MState) (B : ℚ) : ℚ × ℚ :=
  let copper := copperLoss m.wiring s.current s.resistance
  let iron := ironLossQ m.kh m.ke m.polePairs s.motorRpm B
  let driver := driverLoss (5 / 1000) 2 s.current
  let gearPair := gearLoss 1 0
  (copper + iron + driver + gearPair.1, gearPair.2)

/-- One iteration of MotorModel._iterate_thermal_equilibrium at one grid
point: estimate flux, compute total loss, candidate temperature
`new_temp = ambient + total_loss * thermal_resistance`, under-relaxed update
`motor_temp = prev + relax * (new_temp - prev)`, then
`phase_resistance = r25 * (1 + COPPER_TEMP_COEFF * (motor_temp - REFERENCE_TEMPERATURE))`. -/
def stepPoint (m : MModel) (relax : ℚ) (s : MState) : MState :=
  let B := fluxDummy
  let total_loss := (allLosses m s B).1
  let new_temp := m.ambient + total_loss * rthOf m
  let temp' := s.temp + relax * (new_temp - s.temp)
  let resist' := m.r25 * (1 + PhysicsConstants.COPPER_TEMP_COEFF *
    (temp' - PhysicsConstants.REFERENCE_TEMPERATURE))
  { s with temp := temp', resistance := resist' }

/-- A 2D numpy array, as its list of rows (row index = RPM axis). -/
abbrev Grid (α : Type) := List (List α)

/-- Elementwise map over a grid (every model operation is vectorized). -/
def gmap (f : α → β) (g : Grid α) : Grid β := g.map (List.map f)

/-- Concatenation of a list of lists (np.concatenate along axis 0 when
applied to lists of row-blocks). -/
def joinAll (l : List (List α)) : List α := l.foldr (· ++ ·) []

/-- One vectorized iteration of the thermal loop over the whole grid. -/
def stepGrid (m : MModel) (relax : ℚ) (g : Grid MState) : Grid MState :=
  gmap (stepPoint m relax) g

/-- The loop's convergence test
`np.all(np.abs(motor_temp - prev_temp) < CONVERGENCE_THRESHOLD)`, phrased on
the state g before the iteration (stepPoint g is the state after it). -/
def convergedB (m : MModel) (relax : ℚ) (g : Grid MState) : Bool :=
  g.all (fun row => row.all (fun s =>
    decide (|(stepPoint m relax s).temp - s.temp| < ModelDefaults.CONVERGENCE_THRESHOLD)))

/-- The `for _ in range(iters): ... if np.all(...): break` loop of
MotorModel._iterate_thermal_equilibrium.  Returns the final state together
with the number of iterations that were executed. -/
def runAux (m : MModel) (relax : ℚ) : ℕ → Grid MState → Grid MState × ℕ
  | 0, g => (g, 0)
  | n + 1, g =>
    let g' := stepGrid m relax g
    if convergedB m relax g then (g', 1)
    else
      let r := runAux m relax n g'
      (r.1, r.2 + 1)

/-- Number of iterations the thermal loop executes from initial state g. -/
def loopCount (m : MModel) (relax : ℚ) (iters : ℕ) (g : Grid MState) : ℕ :=
  (runAux m relax iters g).2

/-- One grid point of the result dict of MotorModel._calculate_final_results
(the keys output_power, total_loss, efficiency, torque, voltage, current,
rpm, Bmax, motor_temp). -/
structure RPoint where
  outputPower : ℚ
  totalLoss : ℚ
  efficiency : ℚ
  torque : ℚ
  voltage : ℚ
  current : ℚ
  rpm : ℚ
  Bmax : ℚ
  motorTemp : ℚ
deriving DecidableEq, Repr

/-- Embedding of `np.divide(num, den, out=np.zeros_like(den), where=den > 0)`:
the quotient where the denominator is positive, 0 everywhere else. -/
def npDivPos (num den : ℚ) : ℚ := if 0 < den then num / den else 0

/-- MotorModel._calculate_final_results at one grid point: recompute losses at
the converged state, `shaft_output_torque = divide(final_output_power,
shaft_omega, where shaft_omega > 0)`, `input_power = final_output_power +
total_loss`, the dummy voltage, and `efficiency = divide(final_output_power,
input_power, where input_power > 0)`. -/
def finalPoint (m : MModel) (s : MState) : RPoint :=
  let B := fluxDummy
  let lp := allLosses m s B
  let total_loss := lp.1
  let final_output_power := lp.2
  let shaft_output_torque := npDivPos final_output_power s.shaftOmega
  let input_power := final_output_power + total_loss
  let efficiency := npDivPos final_output_power input_power
  { outputPower := final_output_power
    totalLoss := total_loss
    efficiency := efficiency
    torque := shaft_output_torque
    voltage := voltageDummy
    current := s.current
    rpm := s.shaftRpm
    Bmax := B
    motorTemp := s.temp }

/-- MotorModel.analyze on a grid of (current, shaft_rpm) points: initialize,
iterate to thermal equilibrium, compute final results.  c is the
RPM-to-rad/s conversion constant (2*pi/60 in the source). -/
def analyze (m : MModel) (c relax : ℚ) (iters : ℕ) (grid : Grid (ℚ × ℚ)) : Grid RPoint :=
  let init := gmap (initState m c) grid
  let looped := (runAux m relax iters init).1
  gmap (finalPoint m) looped

/-- MotorModel.analyze at the default arguments
iters = ModelDefaults.MAX_ITERATIONS, relax = ModelDefaults.RELAXATION_FACTOR. -/
def analyzeDefault (m : MModel) (c : ℚ) (grid : Grid (ℚ × ℚ)) : Grid RPoint :=
  analyze m c ModelDefaults.RELAXATION_FACTOR ModelDefaults.MAX_ITERATIONS grid

/-! ## Parallel grid splitter (src/py_qdd_model/analysis/parallel_analyzer.py) -/

/-- `np.meshgrid(current_range, rpm_range)` as a grid of (current, rpm)
pairs: row i is rpm_range[i], column j is current_range[j]. -/
def meshgrid (current_range rpm_range : List ℚ) : Grid (ℚ × ℚ) :=
  rpm_range.map (fun r => current_range.map (fun i => (i, r)))

/-- Chunk sizes of `np.array_split(xs, n)`: the first (len % n) chunks have
len / n + 1 elements, the remaining ones len / n. -/
def splitSizes (len n : ℕ) : List ℕ :=
  (List.range n).map (fun i => if i < len % n then len / n + 1 else len / n)

/-- Cut a list into consecutive chunks of the given sizes. -/
def takeChunks : List ℕ → List α → List (List α)
  | [], _ => []
  | s :: ss, xs => xs.take s :: takeChunks ss (xs.drop s)

/-- `np.array_split(xs, n, axis=0)` on the list of rows. -/
def arraySplit (xs : List α) (n : ℕ) : List (List α) :=
  takeChunks (splitSizes xs.length n) xs

/-- run_parallel_analysis (analysis/parallel_analyzer.py): build the meshgrid,
split it into nProcs contiguous row-chunks along the RPM axis, run
MotorModel.analyze on every chunk independently (each worker process builds
its own model from the same params and runs the same pure computation), and
concatenate the per-key results in original order.  nProcs models the
os.cpu_count() value the source picks up from the environment. -/
def runParallel (m : MModel) (c relax : ℚ) (iters nProcs : ℕ)
    (current_range rpm_range : List ℚ) : Grid RPoint :=
  let grid := meshgrid current_range rpm_range
  let chunks := arraySplit grid nProcs
  joinAll (chunks.map (fun ch => analyze m c relax iters ch))

/-- An iron-loss configuration the constructor accepts (alpha = 0, every other
field at its constructor default) under which the claim fails. -/
noncomputable def ironCfgAlphaZero : IronCfg :=
  { kh := 1 / 1000, ke := 1 / 10000000, alpha := 0, beta := 3 / 2,
    kg := none, polePairs := 1 }

/-- Iron-loss configuration with the source default alpha = 2.0. -/
noncomputable def ironCfgDefault : IronCfg :=
  { kh := 1 / 1000, ke := 1 / 10000000, alpha := 2, beta := 3 / 2,
    kg := none, polePairs := 7 }

/-! ## C1: the parallel splitter versus a single analyze call

The working MotorModel accepting MotorParams that run_parallel_analysis
instantiates is not present in the sources (the motor_model.py shipped there
is the component-assembly evolution, whose analyze carries the same loop
skeleton); the embedding above is that shipped analyze.  The chunk/concat
structure of run_parallel_analysis is embedded verbatim, with the worker
count as an argument. -/

/-- A valid parameter set under which chunked and whole-grid analysis differ:
with this model, a grid point at rpm = 0 reaches the 0.05 degC convergence
threshold after one iteration while a point at rpm = 2 needs two, so the
one-row chunk holding the rpm = 0 point stops one iteration early. -/
def mC1ex : MModel :=
  { wiring := Wiring.star, r25 := 1 / 10, kh := 26, ke := 0,
    polePairs := 60, ambient := 25, overrideRth := some (1 / 100) }

/-- Initialized whole grid for the C1 counterexample (currents [0],
rpms [0, 2], conversion constant 1). -/
def c1g0 : Grid MState :=
  [[{ current := 0, shaftRpm := 0, motorRpm := 0, motorOmega := 0, shaftOmega := 0,
      resistance := 1 / 10, temp := 25 }],
   [{ current := 0, shaftRpm := 2, motorRpm := 2, motorOmega := 2, shaftOmega := 2,
      resistance := 1 / 10, temp := 25 }]]

/-- State of the whole grid after one thermal iteration. -/
def c1g1 : Grid MState :=
  [[{ current := 0, shaftRpm := 0, motorRpm := 0, motorOmega := 0, shaftOmega := 0,
      resistance := 50001572005109 / 500000000000000, temp := 12504000013 / 500000000 }],
   [{ current := 0, shaftRpm := 2, motorRpm := 2, motorOmega := 2, shaftOmega := 2,
      resistance := 5001179 / 50000000, temp := 1253 / 50 }]]

/-- State of the whole grid after two thermal iterations (the whole-grid run
stops here: both points have changed by less than 0.05 degC). -/
def c1g2 : Grid MState :=
  [[{ current := 0, shaftRpm := 0, motorRpm := 0, motorOmega := 0, shaftOmega := 0,
      resistance := 31251572005109 / 312500000000000, temp := 7816500013 / 312500000 }],
   [{ current := 0, shaftRpm := 2, motorRpm := 2, motorOmega := 2, shaftOmega := 2,
      resistance := 3126179 / 31250000, temp := 3137 / 125 }]]

/-- The all-zero result record, used only as a headD fallback. -/
def rpZero : RPoint :=
  { outputPower := 0, totalLoss := 0, efficiency := 0, torque := 0, voltage := 0,
    current := 0, rpm := 0, Bmax := 0, motorTemp := 0 }

/-- Initialized first chunk (the rpm = 0 row). -/
def c1gA0 : Grid MState :=
  [[{ current := 0, shaftRpm := 0, motorRpm := 0, motorOmega := 0, shaftOmega := 0,
      resistance := 1 / 10, temp := 25 }]]

/-- First chunk after its single iteration (its worker stops here, while the
whole-grid run gives this row a second iteration). -/
def c1gA1 : Grid MState :=
  [[{ current := 0, shaftRpm := 0, motorRpm := 0, motorOmega := 0, shaftOmega := 0,
      resistance := 50001572005109 / 500000000000000, temp := 12504000013 / 500000000 }]]

/-- Initialized second chunk (the rpm = 2 row). -/
def c1gB0 : Grid MState :=
  [[{ current := 0, shaftRpm := 2, motorRpm := 2, motorOmega := 2, shaftOmega := 2,
      resistance := 1 / 10, temp := 25 }]]

/-- Second chunk after one iteration. -/
def c1gB1 : Grid MState :=
  [[{ current := 0, shaftRpm := 2, motorRpm := 2, motorOmega := 2, shaftOmega := 2,
      resistance := 5001179 / 50000000, temp := 1253 / 50 }]]

/-- Second chunk after two iterations. -/
def c1gB2 : Grid MState :=
  [[{ current := 0, shaftRpm := 2, motorRpm := 2, motorOmega := 2, shaftOmega := 2,
      resistance := 3126179 / 31250000, temp := 3137 / 125 }]]

/-- Initialized grid with two identical rpm = 0 rows, for the witness. -/
def c1gD0 : Grid MState :=
  [[{ current := 0, shaftRpm := 0, motorRpm := 0, motorOmega := 0, shaftOmega := 0,
      resistance := 1 / 10, temp := 25 }],
   [{ current := 0, shaftRpm := 0, motorRpm := 0, motorOmega := 0, shaftOmega := 0,
      resistance := 1 / 10, temp := 25 }]]

/-- Parameter set meeting every condition of claim C8 as stated (non-negative
loss coefficients and thermal resistance, relaxation 0.4) but with an ambient
temperature of -1000 degC, at which the copper temperature correction makes
the resistance — and then the copper loss — negative. -/
def mC8ex : MModel :=
  { wiring := Wiring.star, r25 := 1 / 10, kh := 0, ke := 0,
    polePairs := 1, ambient := -1000, overrideRth := none }

/-- The all-zero per-point state record, used only as a headD fallback. -/
def msZero : MState :=
  { current := 0, shaftRpm := 0, motorRpm := 0, motorOmega := 0, shaftOmega := 0,
    resistance := 0, temp := 0 }

/-- Initialized 1 x 1 grid for the C8 counterexample: current 10 A, rpm 0. -/
def c8g0 : Grid MState :=
  [[{ current := 10, shaftRpm := 0, motorRpm := 0, motorOmega := 0, shaftOmega := 0,
      resistance := 1 / 10, temp := -1000 }]]

/-- State after the first iteration: the point heats to -974 degC, and the
temperature-corrected resistance of the 25 degC nameplate value 0.1 Ohm is
already negative. -/
def c8g1 : Grid MState :=
  [[{ current := 10, shaftRpm := 0, motorRpm := 0, motorOmega := 0, shaftOmega := 0,
      resistance := -(292607 / 1000000), temp := -974 }]]

/-- Parameter set and grid for the C8 witness: the default-style motor at
ambient 25 degC, one grid point at 10 A and 300 rpm. -/
def mC8w : MModel :=
  { wiring := Wiring.star, r25 := 1 / 10, kh := 1 / 1000, ke := 1 / 10000000,
    polePairs := 7, ambient := 25, overrideRth := none }

/-! ## C7: parameter validation at construction time (src/py_qdd_model/schema.py)

WindingParams and GearParams are pydantic models; a constraint violation
raises ValidationError at construction, and pydantic collects every failing
field in one structured error list.  The embedding returns the list of
violated constraints; construction succeeds exactly when it is empty. -/

/-- Constraints checked by WindingParams: Field(ge=0) on phase_resistance,
phase_inductance, continuous_current and peak_current, Field(gt=0) on
wire_diameter and turns_per_coil, and the peak_ge_continuous validator. -/
inductive WViol where
  | resistNeg : WViol
  | inductNeg : WViol
  | contNeg : WViol
  | peakNeg : WViol
  | peakLtCont : WViol
  | diamNotPos : WViol
  | turnsNotPos : WViol
deriving DecidableEq, Repr

/-- The raw field values handed to WindingParams.__init__. -/
structure WindingRaw where
  phase_resistance : ℚ
  phase_inductance : ℚ
  wiring : Wiring
  continuous_current : ℚ
  peak_current : ℚ
  wire_diameter : ℚ
  turns_per_coil : ℤ
deriving DecidableEq, Repr

/-- Validation of WindingParams (schema.py): the four ge=0 fields, the two
gt=0 fields, and the peak_ge_continuous field validator, which pydantic runs
only when peak_current passed its own bound and continuous_current is present
in info.data (that is, passed its own bound). -/
def validateWinding (w : WindingRaw) : List WViol :=
  (if w.phase_resistance < 0 then [WViol.resistNeg] else []) ++
  (if w.phase_inductance < 0 then [WViol.inductNeg] else []) ++
  (if w.continuous_current < 0 then [WViol.contNeg] else []) ++
  (if w.peak_current < 0 then [WViol.peakNeg] else []) ++
  (if 0 ≤ w.peak_current ∧ 0 ≤ w.continuous_current ∧
      w.peak_current < w.continuous_current then [WViol.peakLtCont] else []) ++
  (if w.wire_diameter ≤ 0 then [WViol.diamNotPos] else []) ++
  (if w.turns_per_coil ≤ 0 then [WViol.turnsNotPos] else [])

/-- Constraints checked by GearParams: Field(gt=0) on gear_ratio and the
eff_between_0_and_1 validator requiring gear_efficiency in (0, 1]. -/
inductive GViol where
  | ratioNotPos : GViol
  | effOutOfRange : GViol
deriving DecidableEq, Repr

/-- The raw field values handed to GearParams.__init__; gearReduction embeds
the source field gear_ratio. -/
structure GearRaw where
  gearReduction : ℚ
  gear_efficiency : ℚ
deriving DecidableEq, Repr

/-- Validation of GearParams (schema.py). -/
def validateGear (g : GearRaw) : List GViol :=
  (if g.gearReduction ≤ 0 then [GViol.ratioNotPos] else []) ++
  (if ¬(0 < g.gear_efficiency ∧ g.gear_efficiency ≤ 1) then [GViol.effOutOfRange] else [])

/-- A winding parameter set with phase_resistance exactly 0 and every other
field satisfying its bound. -/
def wZeroRes : WindingRaw :=
  { phase_resistance := 0, phase_inductance := 1, wiring := Wiring.star,
    continuous_current := 10, peak_current := 30, wire_diameter := 1,
    turns_per_coil := 50 }

/-- A winding parameter set with peak_current < continuous_current. -/
def wPeakLt : WindingRaw :=
  { phase_resistance := 1, phase_inductance := 1, wiring := Wiring.star,
    continuous_current := 30, peak_current := 10, wire_diameter := 1,
    turns_per_coil := 50 }

/-- Gear parameters with efficiency above 1. -/
def gBad : GearRaw := { gearReduction := 9, gear_efficiency := 2 }

/-! ## C6: summary analyzer (src/py_qdd_model/analysis/results_analyzer.py)

The analyzer reads the result dict and a flat params record exposing
bus_voltage and continuous_current.  NaN bookkeeping of the source
(`np.where(mask, data, nan)` + `np.nanargmax`) is embedded by scanning only
the masked cells in row-major order, keeping the first strict maximum —
exactly nanargmax's tie-breaking; the two None-guards of _get_summary_point
collapse to "no masked cell".  Strings are out of scope: the embedding keeps
the selected values and coordinates that the source formats. -/

/-- Modelled from the spec: the flat parameter record the analyzer
dereferences (p.bus_voltage, p.continuous_current).  The nested MotorParams
evolution in schema.py spells these simulation.bus_voltage and
winding.continuous_current; only these two fields are read. -/
structure AnalyzerParams where
  bus_voltage : ℚ
  continuous_current : ℚ
deriving DecidableEq, Repr

/-- The result-dict entries ResultsAnalyzer reads. -/
structure ResultsData where
  voltage : Grid ℚ
  efficiency : Grid ℚ
  output_power : Grid ℚ
  torque : Grid ℚ
  rpm : Grid ℚ
  current : Grid ℚ
deriving DecidableEq, Repr

/-- Cell (i, j) of a grid, as numpy indexing. -/
def cellGet (g : Grid α) (i j : ℕ) : Option α := (g.get? i).bind (fun row => row.get? j)

/-- The feasibility mask `valid_mask = results['voltage'] <= p.bus_voltage`. -/
def validMask (busV : ℚ) (voltage : Grid ℚ) : Grid Bool :=
  voltage.map (List.map (fun v => decide (v ≤ busV)))

/-- List indexed from n upward (np.ndenumerate restricted to one axis). -/
def enumFromN (n : ℕ) : List α → List (ℕ × α)
  | [] => []
  | a :: as => (n, a) :: enumFromN (n + 1) as

/-- Rows of two grids zipped elementwise. -/
def gzip (a : Grid α) (b : Grid β) : Grid (α × β) :=
  List.zipWith (List.zipWith Prod.mk) a b

/-- Flattened row-major list of the masked cells: coordinates and value of
every cell whose mask entry is true (the cells nanargmax may select after
`np.where(mask, data, nan)`). -/
def maskedCells (mask : Grid Bool) (vals : Grid ℚ) : List ((ℕ × ℕ) × ℚ) :=
  joinAll ((enumFromN 0 (gzip mask vals)).map (fun ir =>
    (enumFromN 0 ir.2).filterMap (fun jmv =>
      if jmv.2.1 then some ((ir.1, jmv.1), jmv.2.2) else none)))

/-- One step of the nanargmax scan: keep the incumbent unless the new value
is strictly larger (first maximum wins, as np.nanargmax). -/
def argmaxStep (acc : Option ((ℕ × ℕ) × ℚ)) (y : (ℕ × ℕ) × ℚ) : Option ((ℕ × ℕ) × ℚ) :=
  match acc with
  | none => some y
  | some b => if b.2 < y.2 then some y else some b

/-- np.nanargmax over the masked cells; none when every cell is masked out
(the source's two early `return None, None` guards). -/
def firstArgmax (l : List ((ℕ × ℕ) × ℚ)) : Option ((ℕ × ℕ) × ℚ) :=
  l.foldl argmaxStep none

/-- ResultsAnalyzer._get_summary_point for one result key. -/
def getSummaryPoint (busV : ℚ) (voltage vals : Grid ℚ) : Option ((ℕ × ℕ) × ℚ) :=
  firstArgmax (maskedCells (validMask busV voltage) vals)

/-- One step of the np.argmin scan over |x - target| (first minimum wins). -/
def argminAbsStep (t : ℚ) (acc : Option (ℕ × ℚ)) (y : ℕ × ℚ) : Option (ℕ × ℚ) :=
  match acc with
  | none => some y
  | some b => if |y.2 - t| < |b.2 - t| then some y else some b

/-- `np.argmin(np.abs(current_range - continuous_current))`: index of the
column nearest the continuous current (first occurrence on ties). -/
def argminAbs (xs : List ℚ) (t : ℚ) : ℕ :=
  match (enumFromN 0 xs).foldl (argminAbsStep t) none with
  | some b => b.1
  | none => 0

/-- Masked cells of one column j (the rated slice `valid_mask[:, j]` and
`efficiency[:, j]`). -/
def columnCells (mask : Grid Bool) (vals : Grid ℚ) (j : ℕ) : List ((ℕ × ℕ) × ℚ) :=
  (enumFromN 0 (gzip mask vals)).filterMap (fun ir =>
    match (ir.2).get? j with
    | some mv => if mv.1 then some ((ir.1, j), mv.2) else none
    | none => none)

/-- The summary record ResultsAnalyzer.calculate_summary fills: an entry is
none exactly when the source omits the corresponding keys from the dict. -/
structure SummaryS where
  maxEffPoint : Option ((ℕ × ℕ) × ℚ)
  maxPowerPoint : Option ((ℕ × ℕ) × ℚ)
  maxTorquePoint : Option ((ℕ × ℕ) × ℚ)
  ratedPoint : Option ((ℕ × ℕ) × ℚ)
  envelopeMax : Option (ℚ × ℚ)
deriving DecidableEq, Repr

/-- np.max over the values of a non-empty masked-cell list. -/
def maxCellVal (x : (ℕ × ℕ) × ℚ) (xs : List ((ℕ × ℕ) × ℚ)) : ℚ :=
  xs.foldl (fun a p => max a p.2) x.2

/-- ResultsAnalyzer.calculate_summary: peak efficiency, max output power and
max torque over the feasible cells; the rated point as the feasible maximum
of the efficiency column nearest continuous_current; the feasible envelope's
max rpm and current. -/
def calculateSummary (p : AnalyzerParams) (current_range : List ℚ)
    (r : ResultsData) : SummaryS :=
  let mask := validMask p.bus_voltage r.voltage
  { maxEffPoint := firstArgmax (maskedCells mask r.efficiency)
    maxPowerPoint := firstArgmax (maskedCells mask r.output_power)
    maxTorquePoint := firstArgmax (maskedCells mask r.torque)
    ratedPoint := firstArgmax
      (columnCells mask r.efficiency (argminAbs current_range p.continuous_current))
    envelopeMax :=
      match maskedCells mask r.rpm, maskedCells mask r.current with
      | x :: xs, y :: ys => some (maxCellVal x xs, maxCellVal y ys)
      | _, _ => none }

/-- Result grids whose single cell needs 50 V on a 48 V bus: no feasible
point anywhere. -/
def rNoFeas : ResultsData :=
  { voltage := [[50]], efficiency := [[1]], output_power := [[1]],
    torque := [[1]], rpm := [[1]], current := [[1]] }

/-- Analyzer parameters for the witness. -/
def pAn : AnalyzerParams := { bus_voltage := 48, continuous_current := 10 }

/-- Model instance for the C2 witness. -/
def mC2w : MModel :=
  { wiring := Wiring.star, r25 := 1 / 10, kh := 1 / 1000, ke := 1 / 10000000,
    polePairs := 7, ambient := 25, overrideRth := none }

/-- One-point state grid for the C2 witness. -/
def gC2w : Grid MState :=
  [[{ current := 10, shaftRpm := 300, motorRpm := 300, motorOmega := 300,
      shaftOmega := 300, resistance := 1 / 10, temp := 25 }]]


/-! ## The flat-schema MotorModel of src/main.py (the working evolution)

main.py's analyze computes with the true physical constants 2*pi/60 and
sqrt, so this embedding lives in the reals. -/

/-- RPM_TO_RAD_PER_SEC, the literal `2 * np.pi / 60` of main.py. -/
noncomputable def RPM_TO_RAD_R : ℝ := 2 * Real.pi / 60

/-- np.divide(num, den, out=np.zeros_like(den), where=den > 0) over reals. -/
noncomputable def npDivPosR (num den : ℝ) : ℝ := if 0 < den then num / den else 0

/-- GearLossModel.calculate_loss of main.py (same guards as the package
version), per grid point over the reals. -/
noncomputable def gearLossR (gear_efficiency P : ℝ) : ℝ × ℝ :=
  let invalid := 1 ≤ gear_efficiency ∨ P ≤ 0
  let final_output_power := P * gear_efficiency
  let loss := P - final_output_power
  (if invalid then 0 else loss, if invalid then P else final_output_power)

/-- The flat parameter dict of main.py's MotorModel; gearReduction embeds the
gear_ratio entry. -/
structure MainParams where
  kv : ℝ
  phase_resistance : ℝ
  phase_inductance : ℝ
  pole_pairs : ℝ
  wiring : Wiring
  ambient_temperature : ℝ
  thermal_resistance : ℝ
  hysteresis_coeff : ℝ
  eddy_current_coeff : ℝ
  driver_on_resistance : ℝ
  driver_fixed_loss : ℝ
  gearReduction : ℝ
  gear_efficiency : ℝ
  bus_voltage : ℝ

/-- `self.kt = 9.549 / params['kv']` (and ke = kt). -/
noncomputable def mainKt (p : MainParams) : ℝ := 9549 / 1000 / p.kv

/-- main.py CopperLossModel.calculate_loss: star and delta branches of the
if/elif. -/
noncomputable def mainCopper (w : Wiring) (current resistance : ℝ) : ℝ :=
  match w with
  | Wiring.star => 3 * current ^ 2 * resistance
  | Wiring.delta => current ^ 2 * resistance

/-- main.py IronLossModel.calculate_loss: hysteresis_coeff * rpm +
eddy_current_coeff * rpm**2 (no flux dependence in this evolution). -/
noncomputable def mainIron (p : MainParams) (motor_rpm : ℝ) : ℝ :=
  p.hysteresis_coeff * motor_rpm + p.eddy_current_coeff * motor_rpm ^ 2

/-- main.py DriverLossModel.calculate_loss. -/
noncomputable def mainDriver (p : MainParams) (current : ℝ) : ℝ :=
  current ^ 2 * p.driver_on_resistance + p.driver_fixed_loss

/-- The thermal iteration of main.py analyze: starting at the 25 degC value,
each of the fixed 10 rounds recomputes losses (with the torque ESTIMATE, not
yet clamped), the temperature ambient + total * thermal_resistance and then
the corrected resistance R25 * (1 + 0.00393 * (temp - 25)). -/
noncomputable def mainResistIter (p : MainParams) (current motor_rpm motor_omega : ℝ) :
    ℕ → ℝ
  | 0 => p.phase_resistance
  | n + 1 =>
    let R := mainResistIter p current motor_rpm motor_omega n
    let copper_loss := mainCopper p.wiring current R
    let iron_loss := mainIron p motor_rpm
    let driver_loss := mainDriver p current
    let gross_torque_est := mainKt p * current
    let torque_loss_iron_est := npDivPosR iron_loss motor_omega
    let motor_output_torque_est := gross_torque_est - torque_loss_iron_est
    let motor_output_power_est := motor_output_torque_est * motor_omega
    let gear_loss_est := (gearLossR p.gear_efficiency motor_output_power_est).1
    let total_loss := copper_loss + iron_loss + driver_loss + gear_loss_est
    let motor_temp := p.ambient_temperature + total_loss * p.thermal_resistance
    p.phase_resistance * (1 + 393 / 100000 * (motor_temp - 25))

/-- The converged resistance main.py uses in its final pass. -/
noncomputable def mainResistFinal (p : MainParams) (current rpm : ℝ) : ℝ :=
  mainResistIter p current (rpm * p.gearReduction)
    (rpm * p.gearReduction * RPM_TO_RAD_R) 10

/-- Motor output power of main.py's final pass: the gross torque minus the
iron-loss torque, clamped at zero (`np.maximum(0, ...)`), times motor omega. -/
noncomputable def mainMotorOutputPower (p : MainParams) (current rpm : ℝ) : ℝ :=
  let motor_omega := rpm * p.gearReduction * RPM_TO_RAD_R
  let iron_loss := mainIron p (rpm * p.gearReduction)
  let gross_torque := mainKt p * current
  let torque_loss_iron := npDivPosR iron_loss motor_omega
  max 0 (gross_torque - torque_loss_iron) * motor_omega

/-- final_output_power of main.py's final pass. -/
noncomputable def mainFinalOutputPower (p : MainParams) (current rpm : ℝ) : ℝ :=
  (gearLossR p.gear_efficiency (mainMotorOutputPower p current rpm)).2

/-- total_loss of main.py's final pass. -/
noncomputable def mainTotalLoss (p : MainParams) (current rpm : ℝ) : ℝ :=
  mainCopper p.wiring current (mainResistFinal p current rpm) +
  mainIron p (rpm * p.gearReduction) +
  mainDriver p current +
  (gearLossR p.gear_efficiency (mainMotorOutputPower p current rpm)).1

/-- Required line-to-line voltage of main.py: vector sum of back-EMF,
resistive drop, inductive drop, with the star / delta factors. -/
noncomputable def mainVoltage (p : MainParams) (current rpm : ℝ) : ℝ :=
  let motor_omega := rpm * p.gearReduction * RPM_TO_RAD_R
  let electrical_omega := motor_omega * p.pole_pairs
  let R := mainResistFinal p current rpm
  match p.wiring with
  | Wiring.star =>
    let back_emf := Real.sqrt 3 * mainKt p * motor_omega
    let resistance_drop := current * (R * 2)
    let inductive_v_drop := current * electrical_omega * (p.phase_inductance * 2)
    Real.sqrt ((back_emf + resistance_drop) ^ 2 + inductive_v_drop ^ 2)
  | Wiring.delta =>
    let back_emf := mainKt p * motor_omega
    let resistance_drop := current * (R * 2 / 3)
    let inductive_v_drop := current * electrical_omega * (p.phase_inductance * 2 / 3)
    Real.sqrt ((back_emf + resistance_drop) ^ 2 + inductive_v_drop ^ 2)

/-- One grid point of the dict main.py's analyze returns (keys output power,
total loss, efficiency, torque, required voltage, current, rpm). -/
structure MainRes where
  outputPower : ℝ
  totalLoss : ℝ
  efficiency : ℝ
  torque : ℝ
  voltage : ℝ
  current : ℝ
  rpm : ℝ

/-- main.py MotorModel.analyze at one grid point: the gearbox output torque
divides final_output_power by the output shaft omega (zero where it is not
positive) and the efficiency divides final_output_power by input_power =
final_output_power + total_loss (zero where not positive). -/
noncomputable def mainAnalyzePoint (p : MainParams) (current rpm : ℝ) : MainRes :=
  let output_omega := rpm * RPM_TO_RAD_R
  let final_output_power := mainFinalOutputPower p current rpm
  let total_loss := mainTotalLoss p current rpm
  let input_power := final_output_power + total_loss
  { outputPower := final_output_power
    totalLoss := total_loss
    efficiency := npDivPosR final_output_power input_power
    torque := npDivPosR final_output_power output_omega
    voltage := mainVoltage p current rpm
    current := current
    rpm := rpm }

/-! ## Theorems -/

/-! ## Basic lemmas about the loop and the grid combinators -/

theorem runAux_zero (m : MModel) (relax : ℚ) (g : Grid MState) :
    runAux m relax 0 g = (g, 0) := rfl

theorem runAux_succ_true (m : MModel) (relax : ℚ) (n : ℕ) (g : Grid MState)
    (h : convergedB m relax g = true) :
    runAux m relax (n + 1) g = (stepGrid m relax g, 1) := by
  simp [runAux, h]

theorem runAux_succ_false (m : MModel) (relax : ℚ) (n : ℕ) (g : Grid MState)
    (h : convergedB m relax g = false) :
    runAux m relax (n + 1) g =
      ((runAux m relax n (stepGrid m relax g)).1,
       (runAux m relax n (stepGrid m relax g)).2 + 1) := by
  simp [runAux, h]

theorem loopCount_le (m : MModel) (relax : ℚ) :
    ∀ (n : ℕ) (g : Grid MState), loopCount m relax n g ≤ n := by
  intro n
  induction n with
  | zero => intro g; simp [loopCount, runAux]
  | succ k ih =>
    intro g
    by_cases h : convergedB m relax g = true
    · simp [loopCount, runAux, h]
    · have h' : convergedB m relax g = false := by
        cases hb : convergedB m relax g
        · rfl
        · exact absurd hb h
      simpa [loopCount, runAux_succ_false m relax k g h'] using
        Nat.succ_le_succ (ih (stepGrid m relax g))

theorem loopCount_pos (m : MModel) (relax : ℚ) (n : ℕ) (g : Grid MState)
    (h : 0 < n) : 0 < loopCount m relax n g := by
  cases n with
  | zero => omega
  | succ j =>
    cases hb : convergedB m relax g
    · simp [loopCount, runAux_succ_false m relax j g hb]
    · simp [loopCount, runAux_succ_true m relax j g hb]

theorem runAux_fst_iterate (m : MModel) (relax : ℚ) :
    ∀ (n : ℕ) (g : Grid MState),
      (runAux m relax n g).1 = (stepGrid m relax)^[(runAux m relax n g).2] g := by
  intro n
  induction n with
  | zero => intro g; simp [runAux]
  | succ k ih =>
    intro g
    cases hb : convergedB m relax g
    · rw [runAux_succ_false m relax k g hb]
      simp only [ih (stepGrid m relax g)]
      rw [Function.iterate_succ_apply]
    · rw [runAux_succ_true m relax k g hb]
      simp [Function.iterate_succ_apply]

theorem runAux_not_conv (m : MModel) (relax : ℚ) :
    ∀ (n : ℕ) (g : Grid MState) (k : ℕ), k + 1 < (runAux m relax n g).2 →
      convergedB m relax ((stepGrid m relax)^[k] g) = false := by
  intro n
  induction n with
  | zero => intro g k h; simp [runAux] at h
  | succ j ih =>
    intro g k h
    cases hb : convergedB m relax g
    · rw [runAux_succ_false m relax j g hb] at h
      cases k with
      | zero => simpa using hb
      | succ i =>
        rw [Function.iterate_succ_apply]
        exact ih (stepGrid m relax g) i (by omega)
    · rw [runAux_succ_true m relax j g hb] at h
      omega

theorem runAux_conv_at (m : MModel) (relax : ℚ) :
    ∀ (n : ℕ) (g : Grid MState), (runAux m relax n g).2 < n →
      convergedB m relax ((stepGrid m relax)^[(runAux m relax n g).2 - 1] g) = true := by
  intro n
  induction n with
  | zero => intro g h; simp [runAux] at h
  | succ j ih =>
    intro g h
    cases hb : convergedB m relax g
    · rw [runAux_succ_false m relax j g hb] at h ⊢
      have hlt : (runAux m relax j (stepGrid m relax g)).2 < j := by omega
      have := ih (stepGrid m relax g) hlt
      have hpos : 0 < (runAux m relax j (stepGrid m relax g)).2 := by
        refine loopCount_pos m relax j (stepGrid m relax g) ?_
        omega
      have hidx : (runAux m relax j (stepGrid m relax g)).2 + 1 - 1 =
          ((runAux m relax j (stepGrid m relax g)).2 - 1) + 1 := by omega
      rw [hidx, Function.iterate_succ_apply]
      exact this
    · rw [runAux_succ_true m relax j g hb]
      simpa using hb

theorem gmap_gmap (f : α → β) (h : β → γ) (g : Grid α) :
    gmap h (gmap f g) = gmap (fun x => h (f x)) g := by
  simp [gmap, List.map_map]

theorem joinAll_map_map (f : α → β) (L : List (List α)) :
    (joinAll L).map f = joinAll (L.map (List.map f)) := by
  induction L with
  | nil => rfl
  | cons x xs ih =>
    simp only [joinAll, List.foldr_cons, List.map_cons] at ih ⊢
    rw [List.map_append, ih]

theorem gmap_joinAll (f : α → β) (L : List (Grid α)) :
    gmap f (joinAll L) = joinAll (L.map (gmap f)) := by
  simpa [gmap, List.map_map] using joinAll_map_map (List.map f) L

theorem stepGrid_joinAll (m : MModel) (relax : ℚ) (L : List (Grid MState)) :
    stepGrid m relax (joinAll L) = joinAll (L.map (stepGrid m relax)) := by
  simpa [stepGrid] using gmap_joinAll (stepPoint m relax) L

theorem stepGrid_iterate_joinAll (m : MModel) (relax : ℚ) (k : ℕ)
    (L : List (Grid MState)) :
    (stepGrid m relax)^[k] (joinAll L) = joinAll (L.map ((stepGrid m relax)^[k])) := by
  induction k generalizing L with
  | zero => simp
  | succ j ih =>
    rw [Function.iterate_succ_apply, stepGrid_joinAll]
    rw [ih (L.map (stepGrid m relax))]
    simp [List.map_map]

theorem takeChunks_joinAll (ss : List ℕ) :
    ∀ xs : List α, xs.length ≤ ss.sum → joinAll (takeChunks ss xs) = xs := by
  induction ss with
  | nil =>
    intro xs h
    have : xs = [] := List.eq_nil_of_length_eq_zero (Nat.le_zero.mp (by simpa using h))
    simp [this, takeChunks, joinAll]
  | cons s ss ih =>
    intro xs h
    simp only [takeChunks, joinAll, List.foldr]
    have hd : (xs.drop s).length ≤ ss.sum := by
      simp only [List.length_drop]
      have := h
      simp only [List.sum_cons] at this
      omega
    have := ih (xs.drop s) hd
    simp only [joinAll] at this
    rw [this, List.take_append_drop]

theorem sizes_aux_sum (a m : ℕ) :
    ∀ n : ℕ, ((List.range n).map (fun i => if i < m then a + 1 else a)).sum =
      n * a + min m n := by
  intro n
  induction n with
  | zero => simp
  | succ k ih =>
    rw [List.range_succ]
    simp only [List.map_append, List.sum_append, ih]
    by_cases h : k < m
    · simp only [List.map_cons, List.map_nil, List.sum_cons, List.sum_nil, if_pos h]
      have : min m (k + 1) = k + 1 := by omega
      have h2 : min m k = k := by omega
      rw [this, h2]
      ring
    · simp only [List.map_cons, List.map_nil, List.sum_cons, List.sum_nil, if_neg h]
      have : min m (k + 1) = min m k := by omega
      rw [this]
      ring

theorem splitSizes_sum (len n : ℕ) (h : 0 < n) : (splitSizes len n).sum = len := by
  have hm : len % n < n := Nat.mod_lt _ h
  have := sizes_aux_sum (len / n) (len % n) n
  simp only [splitSizes, this]
  have hmin : min (len % n) n = len % n := by omega
  rw [hmin]
  have := Nat.div_add_mod len n
  omega

theorem joinAll_arraySplit (xs : List α) (n : ℕ) (h : 0 < n) :
    joinAll (arraySplit xs n) = xs := by
  have := splitSizes_sum xs.length n h
  exact takeChunks_joinAll (splitSizes xs.length n) xs (by omega)

/-! ## Claims about the loss models and the final-results pass -/

/-- C9: for all currents I and phase resistances R, copper loss equals
3 * I^2 * R for star wiring and I^2 * R for delta wiring, and for star wiring
at I = 10 A, R = 0.1 Ohm the loss is exactly 30 W. -/
theorem C9_copper_loss (current phase_resistance : ℚ) :
    copperLoss Wiring.star current phase_resistance = 3 * current ^ 2 * phase_resistance ∧
    copperLoss Wiring.delta current phase_resistance = current ^ 2 * phase_resistance ∧
    copperLoss Wiring.star 10 (1 / 10) = 30 := by
  refine ⟨by simp [copperLoss], by simp [copperLoss], by norm_num [copperLoss]⟩

/-- C4: GearLossModel.calculate_loss returns (loss, output) = (P*(1-eta), P*eta)
at every point with eta < 1 and P > 0, and (0, P) — zero loss, power passed
through unchanged — at every point with eta >= 1 or P <= 0. -/
theorem C4_gear_loss_guard (gear_efficiency P : ℚ) :
    gearLoss gear_efficiency P =
      if 1 ≤ gear_efficiency ∨ P ≤ 0 then (0, P)
      else (P * (1 - gear_efficiency), P * gear_efficiency) := by
  by_cases h : 1 ≤ gear_efficiency ∨ P ≤ 0
  · simp [gearLoss, h]
  · simp only [gearLoss, h, if_neg, if_false]
    rw [Prod.mk.injEq]
    exact ⟨by ring, rfl⟩

/-- C10: in both branches of the gear model, loss + final_output_power equals
the input motor output power — the gear model conserves power unconditionally. -/
theorem C10_gear_power_conservation (gear_efficiency P : ℚ) :
    (gearLoss gear_efficiency P).1 + (gearLoss gear_efficiency P).2 = P := by
  by_cases h : 1 ≤ gear_efficiency ∨ P ≤ 0
  · simp [gearLoss, h]
  · simp only [gearLoss, h, if_neg, if_false]
    ring

/-- C3 (amended): for every iron-loss configuration whose Steinmetz exponent
alpha is positive — as with the source defaults alpha = 2.0 (or 1.6 in another
evolution) — the computed iron loss is exactly 0 wherever the flux density is
0, for every RPM (including 0 and negative values).  The positivity condition
is needed: numpy and Real.rpow both give 0 ** 0 = 1, see the counterexample. -/
theorem C3_iron_loss_zero_flux (cfg : IronCfg) (rpm : ℝ) (halpha : 0 < cfg.alpha) :
    ironLossR cfg rpm 0 = 0 := by
  unfold ironLossR
  cases hkg : cfg.kg with
  | none => simp [Real.zero_rpow halpha.ne']
  | some kg => simp [Real.zero_rpow halpha.ne']

/-- C3 counterexample: with alpha = 0 (a configuration IronLossModel.__init__
accepts) the loss at B = 0, rpm = 0 is kh * f_safe * |0| ** 0 = kh * 1e-6 =
1e-9, not 0 — `0.0 ** 0.0 = 1.0` in numpy exactly as `(0:ℝ) ^ (0:ℝ) = 1`. -/
theorem C3_counterexample : ironLossR ironCfgAlphaZero 0 0 ≠ 0 := by
  have h1 : max (0 * (1:ℝ) / 60) (1 / 1000000) = 1 / 1000000 := by
    rw [max_eq_right]
    norm_num
  simp only [ironLossR, ironCfgAlphaZero, h1]
  rw [abs_zero, Real.rpow_zero]
  norm_num

/-- Witness for C3_iron_loss_zero_flux at the default configuration. -/
theorem C3_iron_loss_zero_flux_witness :
    (0:ℝ) < ironCfgDefault.alpha ∧ ironLossR ironCfgDefault 1000 0 = 0 :=
  ⟨by norm_num [ironCfgDefault],
   C3_iron_loss_zero_flux ironCfgDefault 1000 (by norm_num [ironCfgDefault])⟩

/-- C5: in the final results pass of analyze — in main.py's MotorModel (first
two conjuncts) and in the assembly MotorModel._calculate_final_results (next
two) — for every grid point, shaft torque is final_output_power /
shaft_omega with the quotient replaced by 0 wherever shaft_omega <= 0, and
efficiency is final_output_power / (final_output_power + total_loss) with
the quotient replaced by 0 wherever that input power is <= 0; both are total
functions of the exact arithmetic, defined for every grid point including
zero-RPM points (no division by a non-positive denominator is ever taken,
embedding the np.divide out/where guard), and the assembly analyze produces
exactly these values at every grid point of the iterated state. -/
theorem C5_guarded_divisions (m : MModel) (c relax : ℚ) (iters : ℕ)
    (grid : Grid (ℚ × ℚ)) (s : MState) (p : MainParams) (current rpm : ℝ) :
    ((mainAnalyzePoint p current rpm).torque =
      if 0 < rpm * RPM_TO_RAD_R then
        mainFinalOutputPower p current rpm / (rpm * RPM_TO_RAD_R)
      else 0) ∧
    ((mainAnalyzePoint p current rpm).efficiency =
      if 0 < mainFinalOutputPower p current rpm + mainTotalLoss p current rpm then
        mainFinalOutputPower p current rpm /
          (mainFinalOutputPower p current rpm + mainTotalLoss p current rpm)
      else 0) ∧
    ((finalPoint m s).torque =
      if 0 < s.shaftOmega then (allLosses m s fluxDummy).2 / s.shaftOmega else 0) ∧
    ((finalPoint m s).efficiency =
      if 0 < (allLosses m s fluxDummy).2 + (allLosses m s fluxDummy).1 then
        (allLosses m s fluxDummy).2 /
          ((allLosses m s fluxDummy).2 + (allLosses m s fluxDummy).1)
      else 0) ∧
    analyze m c relax iters grid =
      gmap (finalPoint m)
        ((stepGrid m relax)^[loopCount m relax iters (gmap (initState m c) grid)]
          (gmap (initState m c) grid)) := by
  refine ⟨rfl, rfl, rfl, rfl, ?_⟩
  show gmap (finalPoint m) (runAux m relax iters (gmap (initState m c) grid)).1 = _
  rw [runAux_fst_iterate]
  rfl

/-- C2: every iteration of the thermal loop computes the candidate temperature
ambient + total_loss * thermal_resistance, applies the under-relaxed update
temp + relax * (new - temp), then sets phase_resistance to
r25 * (1 + 0.00393 * (motor_temp - 25)); the defaults are 50 iterations,
relax 0.4 and threshold 0.05; the loop executes at least one and at most
iters iterations, its result is the iteration count's fold of the step, and
it stops before exhausting the budget exactly when every grid point's
absolute temperature change drops below the threshold (np.all of the
elementwise comparison), never earlier. -/
theorem C2_thermal_loop_spec (m : MModel) (relax : ℚ) (g : Grid MState) (iters : ℕ)
    (hit : 0 < iters) :
    (ModelDefaults.MAX_ITERATIONS = 50 ∧
     ModelDefaults.RELAXATION_FACTOR = 2 / 5 ∧
     ModelDefaults.CONVERGENCE_THRESHOLD = 1 / 20) ∧
    (∀ s : MState,
      (stepPoint m relax s).temp =
        s.temp + relax * ((m.ambient + (allLosses m s fluxDummy).1 * rthOf m) - s.temp) ∧
      (stepPoint m relax s).resistance =
        m.r25 * (1 + 393 / 100000 * ((stepPoint m relax s).temp - 25))) ∧
    (convergedB m relax g = true ↔
      ∀ row ∈ g, ∀ s ∈ row,
        |(stepPoint m relax s).temp - s.temp| < ModelDefaults.CONVERGENCE_THRESHOLD) ∧
    (loopCount m relax iters g ≤ iters ∧
     0 < loopCount m relax iters g ∧
     (runAux m relax iters g).1 = (stepGrid m relax)^[loopCount m relax iters g] g ∧
     (∀ k : ℕ, k + 1 < loopCount m relax iters g →
        convergedB m relax ((stepGrid m relax)^[k] g) = false) ∧
     (loopCount m relax iters g < iters →
        convergedB m relax ((stepGrid m relax)^[loopCount m relax iters g - 1] g) = true)) := by
  refine ⟨⟨rfl, rfl, rfl⟩, ?_, ?_, loopCount_le m relax iters g,
    loopCount_pos m relax iters g hit, runAux_fst_iterate m relax iters g,
    runAux_not_conv m relax iters g, runAux_conv_at m relax iters g⟩
  · intro s
    constructor
    · rfl
    · show m.r25 * (1 + PhysicsConstants.COPPER_TEMP_COEFF *
        ((stepPoint m relax s).temp - PhysicsConstants.REFERENCE_TEMPERATURE)) = _
      rfl
  · simp [convergedB, List.all_eq_true]

/-- An analyze call is the final-results map applied to the loop-count fold of
the vectorized step on the initialized grid. -/
theorem analyze_iterate (m : MModel) (c relax : ℚ) (iters : ℕ) (ch : Grid (ℚ × ℚ)) :
    analyze m c relax iters ch =
      gmap (finalPoint m)
        ((stepGrid m relax)^[loopCount m relax iters (gmap (initState m c) ch)]
          (gmap (initState m c) ch)) := by
  show gmap (finalPoint m) (runAux m relax iters (gmap (initState m c) ch)).1 = _
  rw [runAux_fst_iterate]
  rfl

/-- C1 (amended): run_parallel_analysis returns, for every output key, an
array elementwise equal to a single MotorModel.analyze call on the whole
grid, PROVIDED every chunk's thermal loop executes the same number of
iterations as the whole-grid loop.  Without that proviso the claim fails:
the convergence test is np.all over the chunk a worker sees, so a chunk
whose points all converge stops refining earlier than the full grid would
(see the counterexample). -/
theorem C1_parallel_equal_counts (m : MModel) (c relax : ℚ) (iters nProcs : ℕ)
    (current_range rpm_range : List ℚ)
    (hn : 0 < nProcs)
    (hcnt : ∀ ch ∈ arraySplit (meshgrid current_range rpm_range) nProcs,
      loopCount m relax iters (gmap (initState m c) ch) =
      loopCount m relax iters (gmap (initState m c) (meshgrid current_range rpm_range))) :
    runParallel m c relax iters nProcs current_range rpm_range =
      analyze m c relax iters (meshgrid current_range rpm_range) := by
  have hmap : (arraySplit (meshgrid current_range rpm_range) nProcs).map
      (fun ch => analyze m c relax iters ch) =
      (arraySplit (meshgrid current_range rpm_range) nProcs).map
      (fun ch => gmap (finalPoint m)
        ((stepGrid m relax)^[loopCount m relax iters
          (gmap (initState m c) (meshgrid current_range rpm_range))]
          (gmap (initState m c) ch))) := by
    refine List.map_congr_left ?_
    intro ch hch
    rw [analyze_iterate, hcnt ch hch]
  show joinAll ((arraySplit (meshgrid current_range rpm_range) nProcs).map
      (fun ch => analyze m c relax iters ch)) = _
  rw [hmap]
  have e1 : (arraySplit (meshgrid current_range rpm_range) nProcs).map
      (fun ch => gmap (finalPoint m)
        ((stepGrid m relax)^[loopCount m relax iters
          (gmap (initState m c) (meshgrid current_range rpm_range))]
          (gmap (initState m c) ch))) =
      (((arraySplit (meshgrid current_range rpm_range) nProcs).map
        (gmap (initState m c))).map
        ((stepGrid m relax)^[loopCount m relax iters
          (gmap (initState m c) (meshgrid current_range rpm_range))])).map
        (gmap (finalPoint m)) := by
    simp [List.map_map]
  rw [e1, ← gmap_joinAll, ← stepGrid_iterate_joinAll, ← gmap_joinAll,
    joinAll_arraySplit (meshgrid current_range rpm_range) nProcs hn,
    ← analyze_iterate]

theorem c1init : gmap (initState mC1ex 1) (meshgrid [(0:ℚ)] [0, 2]) = c1g0 := by
  norm_num [gmap, initState, meshgrid, mC1ex, c1g0]

theorem c1s0 : stepGrid mC1ex (2/5) c1g0 = c1g1 := by
  norm_num [stepGrid, gmap, stepPoint, allLosses, copperLoss, ironLossQ, driverLoss,
    gearLoss, rthOf, fluxDummy, PhysicsConstants.COPPER_TEMP_COEFF,
    PhysicsConstants.REFERENCE_TEMPERATURE, max_def, mC1ex, c1g0, c1g1]

theorem c1s1 : stepGrid mC1ex (2/5) c1g1 = c1g2 := by
  norm_num [stepGrid, gmap, stepPoint, allLosses, copperLoss, ironLossQ, driverLoss,
    gearLoss, rthOf, fluxDummy, PhysicsConstants.COPPER_TEMP_COEFF,
    PhysicsConstants.REFERENCE_TEMPERATURE, max_def, mC1ex, c1g1, c1g2]

theorem c1c0 : convergedB mC1ex (2/5) c1g0 = false := by
  norm_num [convergedB, stepPoint, allLosses, copperLoss, ironLossQ, driverLoss,
    gearLoss, rthOf, fluxDummy, PhysicsConstants.COPPER_TEMP_COEFF,
    PhysicsConstants.REFERENCE_TEMPERATURE, ModelDefaults.CONVERGENCE_THRESHOLD,
    max_def, abs_lt, mC1ex, c1g0]

theorem c1c1 : convergedB mC1ex (2/5) c1g1 = true := by
  norm_num [convergedB, stepPoint, allLosses, copperLoss, ironLossQ, driverLoss,
    gearLoss, rthOf, fluxDummy, PhysicsConstants.COPPER_TEMP_COEFF,
    PhysicsConstants.REFERENCE_TEMPERATURE, ModelDefaults.CONVERGENCE_THRESHOLD,
    max_def, abs_lt, mC1ex, c1g1]

theorem c1full : (runAux mC1ex (2/5) 50 c1g0).1 = c1g2 := by
  rw [show (50:ℕ) = 49 + 1 from rfl, runAux_succ_false mC1ex (2/5) 49 c1g0 c1c0]
  rw [c1s0, show (49:ℕ) = 48 + 1 from rfl, runAux_succ_true mC1ex (2/5) 48 c1g1 c1c1]
  exact c1s1

theorem c1chunks : arraySplit (meshgrid [(0:ℚ)] [0, 2]) 2 =
    [[[((0:ℚ), (0:ℚ))]], [[((0:ℚ), (2:ℚ))]]] := rfl

theorem c1initchA : gmap (initState mC1ex 1) [[((0:ℚ), (0:ℚ))]] = c1gA0 := by
  norm_num [gmap, initState, mC1ex, c1gA0]

theorem c1initchB : gmap (initState mC1ex 1) [[((0:ℚ), (2:ℚ))]] = c1gB0 := by
  norm_num [gmap, initState, mC1ex, c1gB0]

theorem c1cA0 : convergedB mC1ex (2/5) c1gA0 = true := by
  norm_num [convergedB, stepPoint, allLosses, copperLoss, ironLossQ, driverLoss,
    gearLoss, rthOf, fluxDummy, PhysicsConstants.COPPER_TEMP_COEFF,
    PhysicsConstants.REFERENCE_TEMPERATURE, ModelDefaults.CONVERGENCE_THRESHOLD,
    max_def, abs_lt, mC1ex, c1gA0]

theorem c1sA : stepGrid mC1ex (2/5) c1gA0 = c1gA1 := by
  norm_num [stepGrid, gmap, stepPoint, allLosses, copperLoss, ironLossQ, driverLoss,
    gearLoss, rthOf, fluxDummy, PhysicsConstants.COPPER_TEMP_COEFF,
    PhysicsConstants.REFERENCE_TEMPERATURE, max_def, mC1ex, c1gA0, c1gA1]

theorem c1cB0 : convergedB mC1ex (2/5) c1gB0 = false := by
  norm_num [convergedB, stepPoint, allLosses, copperLoss, ironLossQ, driverLoss,
    gearLoss, rthOf, fluxDummy, PhysicsConstants.COPPER_TEMP_COEFF,
    PhysicsConstants.REFERENCE_TEMPERATURE, ModelDefaults.CONVERGENCE_THRESHOLD,
    max_def, abs_lt, mC1ex, c1gB0]

theorem c1cB1 : convergedB mC1ex (2/5) c1gB1 = true := by
  norm_num [convergedB, stepPoint, allLosses, copperLoss, ironLossQ, driverLoss,
    gearLoss, rthOf, fluxDummy, PhysicsConstants.COPPER_TEMP_COEFF,
    PhysicsConstants.REFERENCE_TEMPERATURE, ModelDefaults.CONVERGENCE_THRESHOLD,
    max_def, abs_lt, mC1ex, c1gB1]

theorem c1sB0 : stepGrid mC1ex (2/5) c1gB0 = c1gB1 := by
  norm_num [stepGrid, gmap, stepPoint, allLosses, copperLoss, ironLossQ, driverLoss,
    gearLoss, rthOf, fluxDummy, PhysicsConstants.COPPER_TEMP_COEFF,
    PhysicsConstants.REFERENCE_TEMPERATURE, max_def, mC1ex, c1gB0, c1gB1]

theorem c1sB1 : stepGrid mC1ex (2/5) c1gB1 = c1gB2 := by
  norm_num [stepGrid, gmap, stepPoint, allLosses, copperLoss, ironLossQ, driverLoss,
    gearLoss, rthOf, fluxDummy, PhysicsConstants.COPPER_TEMP_COEFF,
    PhysicsConstants.REFERENCE_TEMPERATURE, max_def, mC1ex, c1gB1, c1gB2]

theorem c1chA : analyze mC1ex 1 (2/5) 50 [[((0:ℚ), (0:ℚ))]] =
    gmap (finalPoint mC1ex) c1gA1 := by
  show gmap (finalPoint mC1ex)
    (runAux mC1ex (2/5) 50 (gmap (initState mC1ex 1) [[((0:ℚ), (0:ℚ))]])).1 = _
  rw [c1initchA, show (50:ℕ) = 49 + 1 from rfl,
    runAux_succ_true mC1ex (2/5) 49 c1gA0 c1cA0]
  rw [c1sA]

theorem c1chB : analyze mC1ex 1 (2/5) 50 [[((0:ℚ), (2:ℚ))]] =
    gmap (finalPoint mC1ex) c1gB2 := by
  show gmap (finalPoint mC1ex)
    (runAux mC1ex (2/5) 50 (gmap (initState mC1ex 1) [[((0:ℚ), (2:ℚ))]])).1 = _
  rw [c1initchB, show (50:ℕ) = 49 + 1 from rfl,
    runAux_succ_false mC1ex (2/5) 49 c1gB0 c1cB0]
  rw [c1sB0, show (49:ℕ) = 48 + 1 from rfl,
    runAux_succ_true mC1ex (2/5) 48 c1gB1 c1cB1]
  rw [c1sB1]

theorem c1analyzeFull : analyze mC1ex 1 (2/5) 50 (meshgrid [(0:ℚ)] [0, 2]) =
    gmap (finalPoint mC1ex) c1g2 := by
  show gmap (finalPoint mC1ex)
    (runAux mC1ex (2/5) 50 (gmap (initState mC1ex 1) (meshgrid [(0:ℚ)] [0, 2]))).1 = _
  rw [c1init, c1full]

theorem c1parallel : runParallel mC1ex 1 (2/5) 50 2 [(0:ℚ)] [0, 2] =
    gmap (finalPoint mC1ex) c1gA1 ++ gmap (finalPoint mC1ex) c1gB2 := by
  show joinAll ((arraySplit (meshgrid [(0:ℚ)] [0, 2]) 2).map
      (fun ch => analyze mC1ex 1 (2/5) 50 ch)) = _
  rw [c1chunks]
  simp only [List.map_cons, List.map_nil]
  rw [c1chA, c1chB]
  simp [joinAll]

/-- C1 counterexample: at the valid parameter set mC1ex, on the 1 x 2 grid of
currents [0] and rpms [0, 2], run_parallel_analysis with two workers and
MotorModel.analyze on the whole grid disagree — the rpm = 0 point's
motor_temp is 25.008000026 in the chunked run but 25.0128000416 in the
whole-grid run, because that chunk's np.all convergence test fires after one
iteration while the whole grid iterates twice. -/
theorem C1_counterexample :
    runParallel mC1ex 1 (2/5) 50 2 [(0:ℚ)] [0, 2] ≠
      analyze mC1ex 1 (2/5) 50 (meshgrid [(0:ℚ)] [0, 2]) := by
  rw [c1parallel, c1analyzeFull]
  intro heq
  have h2 := congrArg (fun g : Grid RPoint => ((g.headD []).headD rpZero).motorTemp) heq
  simp only [gmap, c1gA1, c1g2, List.map_cons, List.map_nil, List.cons_append,
    List.headD_cons, finalPoint] at h2
  norm_num at h2

theorem c1initD : gmap (initState mC1ex 1) (meshgrid [(0:ℚ)] [0, 0]) = c1gD0 := by
  norm_num [gmap, initState, meshgrid, mC1ex, c1gD0]

theorem c1cD0 : convergedB mC1ex (2/5) c1gD0 = true := by
  norm_num [convergedB, stepPoint, allLosses, copperLoss, ironLossQ, driverLoss,
    gearLoss, rthOf, fluxDummy, PhysicsConstants.COPPER_TEMP_COEFF,
    PhysicsConstants.REFERENCE_TEMPERATURE, ModelDefaults.CONVERGENCE_THRESHOLD,
    max_def, abs_lt, mC1ex, c1gD0]

theorem c1cntA : loopCount mC1ex (2/5) 50
    (gmap (initState mC1ex 1) [[((0:ℚ), (0:ℚ))]]) = 1 := by
  rw [c1initchA]
  unfold loopCount
  rw [show (50:ℕ) = 49 + 1 from rfl, runAux_succ_true mC1ex (2/5) 49 c1gA0 c1cA0]

theorem c1cntD : loopCount mC1ex (2/5) 50
    (gmap (initState mC1ex 1) (meshgrid [(0:ℚ)] [0, 0])) = 1 := by
  rw [c1initD]
  unfold loopCount
  rw [show (50:ℕ) = 49 + 1 from rfl, runAux_succ_true mC1ex (2/5) 49 c1gD0 c1cD0]

theorem c1cntHyp : ∀ ch ∈ arraySplit (meshgrid [(0:ℚ)] [0, 0]) 2,
    loopCount mC1ex (2/5) 50 (gmap (initState mC1ex 1) ch) =
    loopCount mC1ex (2/5) 50 (gmap (initState mC1ex 1) (meshgrid [(0:ℚ)] [0, 0])) := by
  intro ch hch
  have hsp : arraySplit (meshgrid [(0:ℚ)] [0, 0]) 2 =
      [[[((0:ℚ), (0:ℚ))]], [[((0:ℚ), (0:ℚ))]]] := rfl
  rw [hsp] at hch
  simp only [List.mem_cons, List.not_mem_nil, or_false] at hch
  rcases hch with rfl | rfl
  · rw [c1cntA, c1cntD]
  · rw [c1cntA, c1cntD]

/-- Witness for C1_parallel_equal_counts: two workers on a grid with two
identical rpm = 0 rows; every chunk and the whole grid converge after one
iteration, and chunked and whole-grid results agree. -/
theorem C1_parallel_equal_counts_witness :
    (0:ℕ) < 2 ∧
    (∀ ch ∈ arraySplit (meshgrid [(0:ℚ)] [0, 0]) 2,
      loopCount mC1ex (2/5) 50 (gmap (initState mC1ex 1) ch) =
      loopCount mC1ex (2/5) 50 (gmap (initState mC1ex 1) (meshgrid [(0:ℚ)] [0, 0]))) ∧
    runParallel mC1ex 1 (2/5) 50 2 [(0:ℚ)] [0, 0] =
      analyze mC1ex 1 (2/5) 50 (meshgrid [(0:ℚ)] [0, 0]) :=
  ⟨by norm_num, c1cntHyp,
   C1_parallel_equal_counts mC1ex 1 (2/5) 50 2 [0] [0, 0] (by norm_num) c1cntHyp⟩

/-! ## C8: motor temperature versus ambient temperature -/

/-- The gear model instance the assembly MotorModel feeds zeros to produces
(0, 0): zero gear loss and zero final output power. -/
theorem gearLoss_one_zero : gearLoss 1 0 = (0, 0) := by
  norm_num [gearLoss]

/-- One thermal iteration preserves "temperature at least ambient and
non-negative phase resistance", given non-negative loss coefficients and
thermal resistance, a relaxation factor in (0, 1], and an ambient temperature
at which the copper temperature correction cannot make the resistance
negative. -/
theorem step_invariant (m : MModel) (relax : ℚ)
    (hkh : 0 ≤ m.kh) (hke : 0 ≤ m.ke) (hr : 0 ≤ m.r25)
    (hrth : 0 ≤ rthOf m) (hrel0 : 0 < relax) (hrel1 : relax ≤ 1)
    (hamb : 25 - 100000 / 393 ≤ m.ambient) (s : MState)
    (h1 : m.ambient ≤ s.temp) (h2 : 0 ≤ s.resistance) :
    m.ambient ≤ (stepPoint m relax s).temp ∧ 0 ≤ (stepPoint m relax s).resistance := by
  have hcopper : 0 ≤ copperLoss m.wiring s.current s.resistance := by
    unfold copperLoss
    cases m.wiring <;> simp <;> positivity
  have hiron : 0 ≤ ironLossQ m.kh m.ke m.polePairs s.motorRpm fluxDummy := by
    unfold ironLossQ
    have hfs : (0:ℚ) ≤ max (s.motorRpm * m.polePairs / 60) (1 / 1000000) :=
      le_trans (by norm_num) (le_max_right _ _)
    have := abs_nonneg (fluxDummy : ℚ)
    positivity
  have hdriver : (0:ℚ) ≤ driverLoss (5 / 1000) 2 s.current := by
    unfold driverLoss
    positivity
  have htot : 0 ≤ (allLosses m s fluxDummy).1 := by
    unfold allLosses
    rw [gearLoss_one_zero]
    dsimp only
    have := hcopper
    have := hiron
    have := hdriver
    linarith
  have htemp : m.ambient ≤ (stepPoint m relax s).temp := by
    show m.ambient ≤ s.temp + relax *
      ((m.ambient + (allLosses m s fluxDummy).1 * rthOf m) - s.temp)
    have hlr : 0 ≤ (allLosses m s fluxDummy).1 * rthOf m := mul_nonneg htot hrth
    nlinarith [mul_nonneg (le_of_lt hrel0) hlr,
      mul_nonneg (sub_nonneg.mpr hrel1) (sub_nonneg.mpr h1)]
  refine ⟨htemp, ?_⟩
  show 0 ≤ m.r25 * (1 + PhysicsConstants.COPPER_TEMP_COEFF *
    ((stepPoint m relax s).temp - PhysicsConstants.REFERENCE_TEMPERATURE))
  have hge : 25 - 100000 / 393 ≤ (stepPoint m relax s).temp := le_trans hamb htemp
  have : (0:ℚ) ≤ 1 + PhysicsConstants.COPPER_TEMP_COEFF *
      ((stepPoint m relax s).temp - PhysicsConstants.REFERENCE_TEMPERATURE) := by
    unfold PhysicsConstants.COPPER_TEMP_COEFF PhysicsConstants.REFERENCE_TEMPERATURE
    nlinarith
  exact mul_nonneg hr this

/-- Iterating the vectorized step on an initialized grid acts pointwise. -/
theorem stepGrid_iterate_gmap (m : MModel) (relax : ℚ) :
    ∀ (k : ℕ) (f : α → MState) (g : Grid α),
      (stepGrid m relax)^[k] (gmap f g) =
        gmap (fun p => (stepPoint m relax)^[k] (f p)) g := by
  intro k
  induction k with
  | zero => intro f g; simp [gmap]
  | succ j ih =>
    intro f g
    rw [Function.iterate_succ_apply]
    show (stepGrid m relax)^[j] (gmap (stepPoint m relax) (gmap f g)) = _
    rw [gmap_gmap, ih (fun x => stepPoint m relax (f x)) g]
    simp only [Function.iterate_succ_apply]

/-- C8 (amended): with non-negative loss coefficients, non-negative thermal
resistance, relaxation factor in (0, 1], a grid of non-negative currents and
RPMs, AND ambient_temperature at least 25 - 1/0.00393 degC (about -229.4 degC;
below that the copper temperature correction can drive the phase resistance,
hence the loss and the temperature, negative — see the counterexample), the
motor temperature is elementwise at least ambient after every iteration of
the thermal loop and in the final result of analyze. -/
theorem C8_temp_ge_ambient (m : MModel) (c relax : ℚ) (iters : ℕ)
    (grid : Grid (ℚ × ℚ))
    (hkh : 0 ≤ m.kh) (hke : 0 ≤ m.ke) (hr : 0 ≤ m.r25)
    (hrth : 0 ≤ rthOf m) (hrel0 : 0 < relax) (hrel1 : relax ≤ 1)
    (hamb : 25 - 100000 / 393 ≤ m.ambient)
    (hgrid : ∀ row ∈ grid, ∀ p ∈ row, 0 ≤ p.1 ∧ 0 ≤ p.2) :
    (∀ k : ℕ, ∀ row ∈ (stepGrid m relax)^[k] (gmap (initState m c) grid),
       ∀ s ∈ row, m.ambient ≤ s.temp) ∧
    (∀ row ∈ analyze m c relax iters grid, ∀ r ∈ row, m.ambient ≤ r.motorTemp) := by
  have key : ∀ (p : ℚ × ℚ) (k : ℕ),
      m.ambient ≤ ((stepPoint m relax)^[k] (initState m c p)).temp ∧
      0 ≤ ((stepPoint m relax)^[k] (initState m c p)).resistance := by
    intro p k
    induction k with
    | zero =>
      refine ⟨?_, ?_⟩
      · show m.ambient ≤ (initState m c p).temp
        exact le_of_eq rfl
      · exact hr
    | succ j ih =>
      rw [Function.iterate_succ_apply']
      exact step_invariant m relax hkh hke hr hrth hrel0 hrel1 hamb _ ih.1 ih.2
  constructor
  · intro k row hrow s hs
    rw [stepGrid_iterate_gmap] at hrow
    simp only [gmap, List.mem_map] at hrow
    obtain ⟨row₀, _, rfl⟩ := hrow
    simp only [List.mem_map] at hs
    obtain ⟨p, _, rfl⟩ := hs
    exact (key p k).1
  · intro row hrow r hr'
    rw [analyze_iterate, stepGrid_iterate_gmap] at hrow
    rw [gmap_gmap] at hrow
    simp only [gmap, List.mem_map] at hrow
    obtain ⟨row₀, _, rfl⟩ := hrow
    simp only [List.mem_map] at hr'
    obtain ⟨p, _, rfl⟩ := hr'
    show m.ambient ≤ ((stepPoint m relax)^[_] (initState m c p)).temp
    exact (key p _).1

theorem c8init : gmap (initState mC8ex 1) [[((10:ℚ), (0:ℚ))]] = c8g0 := by
  norm_num [gmap, initState, mC8ex, c8g0]

theorem c8s0 : stepGrid mC8ex (2/5) c8g0 = c8g1 := by
  norm_num [stepGrid, gmap, stepPoint, allLosses, copperLoss, ironLossQ, driverLoss,
    gearLoss, rthOf, fluxDummy, PhysicsConstants.COPPER_TEMP_COEFF,
    PhysicsConstants.REFERENCE_TEMPERATURE, max_def, mC8ex, c8g0, c8g1]

theorem c8c0 : convergedB mC8ex (2/5) c8g0 = false := by
  norm_num [convergedB, stepPoint, allLosses, copperLoss, ironLossQ, driverLoss,
    gearLoss, rthOf, fluxDummy, PhysicsConstants.COPPER_TEMP_COEFF,
    PhysicsConstants.REFERENCE_TEMPERATURE, ModelDefaults.CONVERGENCE_THRESHOLD,
    max_def, abs_lt, mC8ex, c8g0]

/-- C8 counterexample: with non-negative coefficients, thermal resistance 2,
relaxation 0.4 and the non-negative grid point (current, rpm) = (10, 0), but
ambient -1000 degC, the default thermal loop executes a second iteration
(the first did not converge: the temperature moved by 26 degC) and the state
after it has motor_temp = -1052.62568 degC, strictly below ambient: the
negative temperature-corrected copper resistance produces a negative loss
that "cools" the motor below ambient, contradicting the claim. -/
theorem C8_counterexample :
    gmap (initState mC8ex 1) [[((10:ℚ), (0:ℚ))]] = c8g0 ∧
    convergedB mC8ex (2/5) c8g0 = false ∧
    (((stepGrid mC8ex (2/5) (stepGrid mC8ex (2/5) c8g0)).headD []).headD msZero).temp
      < mC8ex.ambient := by
  refine ⟨c8init, c8c0, ?_⟩
  rw [c8s0]
  norm_num [stepGrid, gmap, stepPoint, allLosses, copperLoss, ironLossQ, driverLoss,
    gearLoss, rthOf, fluxDummy, PhysicsConstants.COPPER_TEMP_COEFF,
    PhysicsConstants.REFERENCE_TEMPERATURE, max_def, mC8ex, c8g1]

/-- Witness for C8_temp_ge_ambient at mC8w on the grid [[(10, 300)]]. -/
theorem C8_temp_ge_ambient_witness :
    ((0:ℚ) ≤ mC8w.kh ∧ (0:ℚ) ≤ mC8w.ke ∧ (0:ℚ) ≤ mC8w.r25 ∧ (0:ℚ) ≤ rthOf mC8w ∧
     (0:ℚ) < 2/5 ∧ (2:ℚ)/5 ≤ 1 ∧ (25:ℚ) - 100000 / 393 ≤ mC8w.ambient ∧
     (∀ row ∈ ([[((10:ℚ), (300:ℚ))]] : Grid (ℚ × ℚ)), ∀ p ∈ row, 0 ≤ p.1 ∧ 0 ≤ p.2)) ∧
    ((∀ k : ℕ, ∀ row ∈ (stepGrid mC8w (2/5))^[k]
        (gmap (initState mC8w 1) [[((10:ℚ), (300:ℚ))]]),
       ∀ s ∈ row, mC8w.ambient ≤ s.temp) ∧
     (∀ row ∈ analyze mC8w 1 (2/5) 50 [[((10:ℚ), (300:ℚ))]],
       ∀ r ∈ row, mC8w.ambient ≤ r.motorTemp)) := by
  have hgrid : ∀ row ∈ ([[((10:ℚ), (300:ℚ))]] : Grid (ℚ × ℚ)),
      ∀ p ∈ row, 0 ≤ p.1 ∧ 0 ≤ p.2 := by
    intro row hrow p hp
    simp only [List.mem_cons, List.not_mem_nil, or_false] at hrow
    subst hrow
    simp only [List.mem_cons, List.not_mem_nil, or_false] at hp
    subst hp
    norm_num
  refine ⟨⟨by norm_num [mC8w], by norm_num [mC8w], by norm_num [mC8w],
    by norm_num [mC8w, rthOf], by norm_num, by norm_num,
    by norm_num [mC8w], hgrid⟩, ?_⟩
  exact C8_temp_ge_ambient mC8w 1 (2/5) 50 [[((10:ℚ), (300:ℚ))]]
    (by norm_num [mC8w]) (by norm_num [mC8w]) (by norm_num [mC8w])
    (by norm_num [mC8w, rthOf]) (by norm_num) (by norm_num)
    (by norm_num [mC8w]) hgrid

theorem mem_ite_singleton {p : Prop} [Decidable p] (a b : WViol) :
    (a ∈ if p then [b] else []) ↔ p ∧ a = b := by
  split_ifs with h <;> simp [h]

theorem mem_ite_singleton_g {p : Prop} [Decidable p] (a b : GViol) :
    (a ∈ if p then [b] else []) ↔ p ∧ a = b := by
  split_ifs with h <;> simp [h]

theorem ite_singleton_eq_nil {α : Type} {p : Prop} [Decidable p] (b : α) :
    ((if p then [b] else []) = []) ↔ ¬p := by
  split_ifs with h <;> simp [h]

/-- C7 (amended): construction of the winding and gear parameter objects
fails — producing a structured list of exactly the violated constraints —
whenever peak_current < continuous_current, whenever gear_efficiency is
outside (0, 1], and whenever a resistance is strictly NEGATIVE; construction
succeeds exactly when all the coded bounds hold.  The claim's "zero ...
resistance" case is the amendment: the schema constraint is ge=0, so a zero
phase_resistance is accepted (see the counterexample). -/
theorem C7_validation (w : WindingRaw) (g : GearRaw) :
    (w.peak_current < w.continuous_current → validateWinding w ≠ []) ∧
    (¬(0 < g.gear_efficiency ∧ g.gear_efficiency ≤ 1) → validateGear g ≠ []) ∧
    (WViol.resistNeg ∈ validateWinding w ↔ w.phase_resistance < 0) ∧
    (WViol.peakLtCont ∈ validateWinding w ↔
      0 ≤ w.peak_current ∧ 0 ≤ w.continuous_current ∧
      w.peak_current < w.continuous_current) ∧
    (GViol.effOutOfRange ∈ validateGear g ↔
      ¬(0 < g.gear_efficiency ∧ g.gear_efficiency ≤ 1)) ∧
    (validateWinding w = [] ↔
      (0 ≤ w.phase_resistance ∧ 0 ≤ w.phase_inductance ∧
       0 ≤ w.continuous_current ∧ 0 ≤ w.peak_current ∧
       w.continuous_current ≤ w.peak_current ∧
       0 < w.wire_diameter ∧ 0 < w.turns_per_coil)) ∧
    (validateGear g = [] ↔
      (0 < g.gearReduction ∧ 0 < g.gear_efficiency ∧ g.gear_efficiency ≤ 1)) := by
  refine ⟨?_, ?_, ?_, ?_, ?_, ?_, ?_⟩
  · intro hlt hnil
    rw [validateWinding] at hnil
    simp only [List.append_eq_nil, ite_singleton_eq_nil, and_assoc] at hnil
    obtain ⟨h1, h2, h3, h4, h5, h6, h7⟩ := hnil
    push_neg at h3 h4
    exact h5 ⟨h4, h3, hlt⟩
  · intro hout hnil
    rw [validateGear] at hnil
    simp only [List.append_eq_nil, ite_singleton_eq_nil, and_assoc] at hnil
    exact hnil.2 hout
  · simp [validateWinding, List.mem_append, mem_ite_singleton, or_assoc]
  · simp [validateWinding, List.mem_append, mem_ite_singleton, or_assoc, and_assoc]
  · simp [validateGear, List.mem_append, mem_ite_singleton_g, or_assoc]
  · rw [validateWinding]
    simp only [List.append_eq_nil, ite_singleton_eq_nil, and_assoc]
    push_neg
    constructor
    · rintro ⟨h1, h2, h3, h4, h5, h6, h7⟩
      exact ⟨h1, h2, h3, h4, h5 h4 h3, h6, h7⟩
    · rintro ⟨h1, h2, h3, h4, h5, h6, h7⟩
      exact ⟨h1, h2, h3, h4, fun _ _ => h5, h6, h7⟩
  · rw [validateGear]
    simp only [List.append_eq_nil, ite_singleton_eq_nil, and_assoc]
    push_neg
    tauto

/-- C7 counterexample: constructing winding parameters with a ZERO phase
resistance succeeds (the violation list is empty) — the schema bound is
phase_resistance >= 0, so "zero ... resistance fails at construction time"
is false on the code; only strictly negative values fail. -/
theorem C7_counterexample : validateWinding wZeroRes = [] := by
  norm_num [validateWinding, wZeroRes]

/-- Witness for C7_validation: at wPeakLt and gBad both implications fire,
and the violation lists are the expected non-empty ones. -/
theorem C7_validation_witness :
    wPeakLt.peak_current < wPeakLt.continuous_current ∧
    validateWinding wPeakLt ≠ [] ∧
    ¬(0 < gBad.gear_efficiency ∧ gBad.gear_efficiency ≤ 1) ∧
    validateGear gBad ≠ [] := by
  have h1 : wPeakLt.peak_current < wPeakLt.continuous_current := by
    norm_num [wPeakLt]
  have h2 : ¬(0 < gBad.gear_efficiency ∧ gBad.gear_efficiency ≤ 1) := by
    norm_num [gBad]
  exact ⟨h1, (C7_validation wPeakLt gBad).1 h1, h2,
    (C7_validation wPeakLt gBad).2.1 h2⟩

theorem mem_joinAll {a : α} : ∀ {L : List (List α)}, a ∈ joinAll L ↔ ∃ l ∈ L, a ∈ l := by
  intro L
  induction L with
  | nil => simp [joinAll]
  | cons x xs ih =>
    simp only [joinAll, List.foldr_cons, List.mem_append, List.mem_cons]
    constructor
    · rintro (h | h)
      · exact ⟨x, Or.inl rfl, h⟩
      · obtain ⟨l, hl, hal⟩ := ih.mp h
        exact ⟨l, Or.inr hl, hal⟩
    · rintro ⟨l, (rfl | hl), hal⟩
      · exact Or.inl hal
      · exact Or.inr (ih.mpr ⟨l, hl, hal⟩)

theorem mem_enumFromN {a : α} : ∀ (l : List α) (n i : ℕ),
    (i, a) ∈ enumFromN n l ↔ ∃ k, i = n + k ∧ l.get? k = some a := by
  intro l
  induction l with
  | nil => intro n i; simp [enumFromN]
  | cons x xs ih =>
    intro n i
    constructor
    · intro h
      rcases List.mem_cons.mp h with heq | hmem
      · obtain ⟨hi, ha⟩ := Prod.ext_iff.mp heq
        refine ⟨0, by omega, ?_⟩
        simp only [List.get?]
        exact congrArg some ha.symm
      · obtain ⟨k, hk, hget⟩ := (ih (n + 1) i).mp hmem
        exact ⟨k + 1, by omega, by simpa using hget⟩
    · rintro ⟨k, hk, hget⟩
      cases k with
      | zero =>
        simp only [List.get?] at hget
        have hx : x = a := by injection hget
        have hi : i = n := by omega
        subst hx
        subst hi
        exact List.mem_cons_self _ _
      | succ k' =>
        refine List.mem_cons_of_mem _ ((ih (n + 1) i).mpr ⟨k', by omega, ?_⟩)
        simpa using hget

/-- Membership version specialised to index base 0. -/
theorem mem_enumZero {a : α} {l : List α} {i : ℕ} :
    (i, a) ∈ enumFromN 0 l ↔ l.get? i = some a := by
  rw [mem_enumFromN]
  constructor
  · rintro ⟨k, hk, hget⟩
    have : i = k := by omega
    subst this
    exact hget
  · intro h
    exact ⟨i, by omega, h⟩

theorem argmax_go : ∀ (l : List ((ℕ × ℕ) × ℚ)) (b : (ℕ × ℕ) × ℚ),
    ∃ r, l.foldl argmaxStep (some b) = some r ∧ (r ∈ l ∨ r = b) ∧ b.2 ≤ r.2 ∧
      ∀ y ∈ l, y.2 ≤ r.2 := by
  intro l
  induction l with
  | nil => intro b; exact ⟨b, rfl, Or.inr rfl, le_refl _, by simp⟩
  | cons y l ih =>
    intro b
    show ∃ r, l.foldl argmaxStep (argmaxStep (some b) y) = some r ∧ _
    by_cases h : b.2 < y.2
    · rw [show argmaxStep (some b) y = some y by simp [argmaxStep, h]]
      obtain ⟨r, hr, hmem, hle, hall⟩ := ih y
      refine ⟨r, hr, ?_, le_trans (le_of_lt h) hle, ?_⟩
      · rcases hmem with hm | rfl
        · exact Or.inl (List.mem_cons_of_mem _ hm)
        · exact Or.inl (List.mem_cons_self _ _)
      · intro z hz
        rcases List.mem_cons.mp hz with rfl | hz'
        · exact hle
        · exact hall z hz'
    · rw [show argmaxStep (some b) y = some b by simp [argmaxStep, h]]
      obtain ⟨r, hr, hmem, hle, hall⟩ := ih b
      refine ⟨r, hr, ?_, hle, ?_⟩
      · rcases hmem with hm | rfl
        · exact Or.inl (List.mem_cons_of_mem _ hm)
        · exact Or.inr rfl
      · intro z hz
        rcases List.mem_cons.mp hz with rfl | hz'
        · push_neg at h
          exact le_trans h hle
        · exact hall z hz'

theorem firstArgmax_some {l : List ((ℕ × ℕ) × ℚ)} {r : (ℕ × ℕ) × ℚ}
    (h : firstArgmax l = some r) : r ∈ l ∧ ∀ y ∈ l, y.2 ≤ r.2 := by
  cases l with
  | nil => simp [firstArgmax] at h
  | cons x xs =>
    have : firstArgmax (x :: xs) = xs.foldl argmaxStep (some x) := rfl
    rw [this] at h
    obtain ⟨r', hr', hmem, hle, hall⟩ := argmax_go xs x
    rw [hr'] at h
    injection h with h
    subst h
    constructor
    · rcases hmem with hm | rfl
      · exact List.mem_cons_of_mem _ hm
      · exact List.mem_cons_self _ _
    · intro y hy
      rcases List.mem_cons.mp hy with rfl | hy'
      · exact hle
      · exact hall y hy'

theorem firstArgmax_eq_none {l : List ((ℕ × ℕ) × ℚ)} :
    firstArgmax l = none ↔ l = [] := by
  cases l with
  | nil => simp [firstArgmax]
  | cons x xs =>
    constructor
    · intro h
      have : firstArgmax (x :: xs) = xs.foldl argmaxStep (some x) := rfl
      rw [this] at h
      obtain ⟨r', hr', _, _, _⟩ := argmax_go xs x
      rw [hr'] at h
      exact absurd h (by simp)
    · intro h
      exact absurd h (by simp)

theorem argmin_go (t : ℚ) : ∀ (l : List (ℕ × ℚ)) (b : ℕ × ℚ),
    ∃ r, l.foldl (argminAbsStep t) (some b) = some r ∧ (r ∈ l ∨ r = b) ∧
      |r.2 - t| ≤ |b.2 - t| ∧ ∀ y ∈ l, |r.2 - t| ≤ |y.2 - t| := by
  intro l
  induction l with
  | nil => intro b; exact ⟨b, rfl, Or.inr rfl, le_refl _, by simp⟩
  | cons y l ih =>
    intro b
    show ∃ r, l.foldl (argminAbsStep t) (argminAbsStep t (some b) y) = some r ∧ _
    by_cases h : |y.2 - t| < |b.2 - t|
    · rw [show argminAbsStep t (some b) y = some y by simp [argminAbsStep, h]]
      obtain ⟨r, hr, hmem, hle, hall⟩ := ih y
      refine ⟨r, hr, ?_, le_trans hle (le_of_lt h), ?_⟩
      · rcases hmem with hm | rfl
        · exact Or.inl (List.mem_cons_of_mem _ hm)
        · exact Or.inl (List.mem_cons_self _ _)
      · intro z hz
        rcases List.mem_cons.mp hz with rfl | hz'
        · exact hle
        · exact hall z hz'
    · rw [show argminAbsStep t (some b) y = some b by simp [argminAbsStep, h]]
      obtain ⟨r, hr, hmem, hle, hall⟩ := ih b
      refine ⟨r, hr, ?_, hle, ?_⟩
      · rcases hmem with hm | rfl
        · exact Or.inl (List.mem_cons_of_mem _ hm)
        · exact Or.inr rfl
      · intro z hz
        rcases List.mem_cons.mp hz with rfl | hz'
        · push_neg at h
          exact le_trans hle h
        · exact hall z hz'

theorem cellGet_validMask {busV : ℚ} {V : Grid ℚ} {i j : ℕ} :
    cellGet (validMask busV V) i j = some true ↔
      ∃ v, cellGet V i j = some v ∧ v ≤ busV := by
  unfold cellGet validMask
  rw [List.get?_map]
  cases hrow : V.get? i with
  | none => simp
  | some row =>
    simp only [Option.map_some', Option.some_bind]
    rw [List.get?_map]
    cases hv : row.get? j with
    | none => simp
    | some v => simp

theorem mem_maskedCells {mask : Grid Bool} {vals : Grid ℚ} {i j : ℕ} {v : ℚ} :
    ((i, j), v) ∈ maskedCells mask vals ↔
      cellGet mask i j = some true ∧ cellGet vals i j = some v := by
  unfold maskedCells
  rw [mem_joinAll]
  constructor
  · rintro ⟨l, hl, hmem⟩
    obtain ⟨⟨i₀, zrow⟩, hir, rfl⟩ := List.mem_map.mp hl
    rw [mem_enumZero] at hir
    obtain ⟨⟨j₀, bv⟩, hjmv, hg⟩ := List.mem_filterMap.mp hmem
    rw [mem_enumZero] at hjmv
    dsimp only at hg
    by_cases hb : bv.1
    · rw [if_pos hb] at hg
      have heq := Option.some.inj hg
      obtain ⟨hij, hv⟩ := Prod.ext_iff.mp heq
      obtain ⟨hi, hj⟩ := Prod.ext_iff.mp hij
      dsimp only at hi hj hv
      subst hi
      subst hj
      subst hv
      obtain ⟨mrow, vrow, hm, hvv, hz⟩ :=
        (List.get?_zipWith_eq_some _ _ _ _ _).mp hir
      rw [← hz] at hjmv
      obtain ⟨b', v', hb', hv'', hbv⟩ :=
        (List.get?_zipWith_eq_some _ _ _ _ _).mp hjmv
      obtain ⟨hb1, hv1⟩ := Prod.ext_iff.mp hbv
      dsimp only at hb1 hv1
      constructor
      · show (mask.get? i₀).bind (fun row => row.get? j₀) = some true
        rw [hm]
        simp only [Option.some_bind]
        rw [hb']
        exact congrArg some (hb1.trans hb)
      · show (vals.get? i₀).bind (fun row => row.get? j₀) = some bv.2
        rw [hvv]
        simp only [Option.some_bind]
        rw [hv'']
        exact congrArg some hv1
    · rw [if_neg hb] at hg
      exact absurd hg (by simp)
  · rintro ⟨hmask, hvals⟩
    unfold cellGet at hmask hvals
    cases hmi : mask.get? i with
    | none => rw [hmi] at hmask; exact absurd hmask (by simp)
    | some mrow =>
      rw [hmi] at hmask
      simp only [Option.some_bind] at hmask
      cases hvi : vals.get? i with
      | none => rw [hvi] at hvals; exact absurd hvals (by simp)
      | some vrow =>
        rw [hvi] at hvals
        simp only [Option.some_bind] at hvals
        refine ⟨_, List.mem_map.mpr ⟨(i, List.zipWith Prod.mk mrow vrow), ?_, rfl⟩, ?_⟩
        · rw [mem_enumZero]
          exact (List.get?_zipWith_eq_some _ _ _ _ _).mpr ⟨mrow, vrow, hmi, hvi, rfl⟩
        · refine List.mem_filterMap.mpr ⟨(j, (true, v)), ?_, ?_⟩
          · rw [mem_enumZero]
            exact (List.get?_zipWith_eq_some _ _ _ _ _).mpr ⟨true, v, hmask, hvals, rfl⟩
          · simp

theorem mem_columnCells {mask : Grid Bool} {vals : Grid ℚ} {j i j' : ℕ} {v : ℚ} :
    ((i, j'), v) ∈ columnCells mask vals j ↔
      j' = j ∧ cellGet mask i j = some true ∧ cellGet vals i j = some v := by
  unfold columnCells
  constructor
  · intro hmem
    obtain ⟨⟨i₀, zrow⟩, hir, hg0⟩ := List.mem_filterMap.mp hmem
    rw [mem_enumZero] at hir
    have hg : (match zrow.get? j with
        | some mv => if mv.1 then some ((i₀, j), mv.2) else none
        | none => none) = some ((i, j'), v) := hg0
    cases hzj : zrow.get? j with
    | none => rw [hzj] at hg; exact absurd hg (by simp)
    | some mv =>
      rw [hzj] at hg
      dsimp only at hg
      by_cases hb : mv.1
      · rw [if_pos hb] at hg
        have heq := Option.some.inj hg
        obtain ⟨hij, hv⟩ := Prod.ext_iff.mp heq
        obtain ⟨hi, hj⟩ := Prod.ext_iff.mp hij
        dsimp only at hi hj hv
        subst hi
        subst hv
        refine ⟨hj.symm, ?_, ?_⟩
        · obtain ⟨mrow, vrow, hm, hvv, hz⟩ :=
            (List.get?_zipWith_eq_some _ _ _ _ _).mp hir
          rw [← hz] at hzj
          obtain ⟨b', v', hb', hv'', hbv⟩ :=
            (List.get?_zipWith_eq_some _ _ _ _ _).mp hzj
          obtain ⟨hb1, hv1⟩ := Prod.ext_iff.mp hbv
          dsimp only at hb1 hv1
          show (mask.get? i₀).bind (fun row => row.get? j) = some true
          rw [hm]
          simp only [Option.some_bind]
          rw [hb']
          exact congrArg some (hb1.trans hb)
        · obtain ⟨mrow, vrow, hm, hvv, hz⟩ :=
            (List.get?_zipWith_eq_some _ _ _ _ _).mp hir
          rw [← hz] at hzj
          obtain ⟨b', v', hb', hv'', hbv⟩ :=
            (List.get?_zipWith_eq_some _ _ _ _ _).mp hzj
          obtain ⟨hb1, hv1⟩ := Prod.ext_iff.mp hbv
          dsimp only at hb1 hv1
          show (vals.get? i₀).bind (fun row => row.get? j) = some mv.2
          rw [hvv]
          simp only [Option.some_bind]
          rw [hv'']
          exact congrArg some hv1
      · rw [if_neg hb] at hg
        exact absurd hg (by simp)
  · rintro ⟨rfl, hmask, hvals⟩
    unfold cellGet at hmask hvals
    cases hmi : mask.get? i with
    | none => rw [hmi] at hmask; exact absurd hmask (by simp)
    | some mrow =>
      rw [hmi] at hmask
      simp only [Option.some_bind] at hmask
      cases hvi : vals.get? i with
      | none => rw [hvi] at hvals; exact absurd hvals (by simp)
      | some vrow =>
        rw [hvi] at hvals
        simp only [Option.some_bind] at hvals
        refine List.mem_filterMap.mpr ⟨(i, List.zipWith Prod.mk mrow vrow), ?_, ?_⟩
        · rw [mem_enumZero]
          exact (List.get?_zipWith_eq_some _ _ _ _ _).mpr ⟨mrow, vrow, hmi, hvi, rfl⟩
        · dsimp only
          rw [show (List.zipWith Prod.mk mrow vrow).get? j' = some (true, v) from
            (List.get?_zipWith_eq_some _ _ _ _ _).mpr ⟨true, v, hmask, hvals, rfl⟩]
          simp

theorem maskedCells_empty {busV : ℚ} {voltage vals : Grid ℚ}
    (hnf : ∀ i j v, cellGet voltage i j = some v → busV < v) :
    maskedCells (validMask busV voltage) vals = [] := by
  rw [List.eq_nil_iff_forall_not_mem]
  rintro ⟨⟨i, j⟩, v⟩ hx
  rw [mem_maskedCells] at hx
  obtain ⟨volt, hvv, hle⟩ := cellGet_validMask.mp hx.1
  exact absurd hle (not_le.mpr (hnf i j volt hvv))

theorem columnCells_empty {busV : ℚ} {voltage vals : Grid ℚ} {j : ℕ}
    (hnf : ∀ i j v, cellGet voltage i j = some v → busV < v) :
    columnCells (validMask busV voltage) vals j = [] := by
  rw [List.eq_nil_iff_forall_not_mem]
  rintro ⟨⟨i, j'⟩, v⟩ hx
  rw [mem_columnCells] at hx
  obtain ⟨volt, hvv, hle⟩ := cellGet_validMask.mp hx.2.1
  exact absurd hle (not_le.mpr (hnf i j volt hvv))

/-- C6: the feasibility mask is exactly voltage <= bus_voltage cell by cell;
whenever no feasible cell exists, every summary field — peak efficiency, max
output power, max torque, rated point and envelope — is absent (none, not a
zero and not an error); every populated search result is a feasible cell
carrying its own grid value and maximal among all feasible cells of its key
(the NaN-ignoring argmax); the rated point lives in, and is maximal within,
the single column whose current is nearest continuous_current. -/
theorem C6_summary_analyzer (p : AnalyzerParams) (current_range : List ℚ)
    (r : ResultsData) :
    (∀ i j v, cellGet r.voltage i j = some v →
       cellGet (validMask p.bus_voltage r.voltage) i j =
         some (decide (v ≤ p.bus_voltage))) ∧
    ((∀ i j v, cellGet r.voltage i j = some v → p.bus_voltage < v) →
       calculateSummary p current_range r =
         { maxEffPoint := none, maxPowerPoint := none, maxTorquePoint := none,
           ratedPoint := none, envelopeMax := none }) ∧
    (∀ vals : Grid ℚ, ∀ i j v,
       firstArgmax (maskedCells (validMask p.bus_voltage r.voltage) vals) =
         some ((i, j), v) →
       (∃ volt, cellGet r.voltage i j = some volt ∧ volt ≤ p.bus_voltage) ∧
       cellGet vals i j = some v ∧
       ∀ i' j' u volt, cellGet vals i' j' = some u →
         cellGet r.voltage i' j' = some volt → volt ≤ p.bus_voltage → u ≤ v) ∧
    ((calculateSummary p current_range r).maxEffPoint =
       firstArgmax (maskedCells (validMask p.bus_voltage r.voltage) r.efficiency) ∧
     (calculateSummary p current_range r).maxPowerPoint =
       firstArgmax (maskedCells (validMask p.bus_voltage r.voltage) r.output_power) ∧
     (calculateSummary p current_range r).maxTorquePoint =
       firstArgmax (maskedCells (validMask p.bus_voltage r.voltage) r.torque) ∧
     (calculateSummary p current_range r).ratedPoint =
       firstArgmax (columnCells (validMask p.bus_voltage r.voltage) r.efficiency
         (argminAbs current_range p.continuous_current))) ∧
    (∀ i j' v, (calculateSummary p current_range r).ratedPoint = some ((i, j'), v) →
       j' = argminAbs current_range p.continuous_current ∧
       (∃ volt, cellGet r.voltage i j' = some volt ∧ volt ≤ p.bus_voltage) ∧
       cellGet r.efficiency i j' = some v ∧
       ∀ i' u volt, cellGet r.efficiency i' j' = some u →
         cellGet r.voltage i' j' = some volt → volt ≤ p.bus_voltage → u ≤ v) ∧
    (∀ jx u, current_range.get? jx = some u →
       ∃ tsel, current_range.get? (argminAbs current_range p.continuous_current) =
           some tsel ∧
         |tsel - p.continuous_current| ≤ |u - p.continuous_current|) := by
  refine ⟨?_, ?_, ?_, ⟨rfl, rfl, rfl, rfl⟩, ?_, ?_⟩
  · intro i j v hv
    rw [cellGet] at hv ⊢
    rw [validMask, List.get?_map]
    cases hrow : r.voltage.get? i with
    | none => rw [hrow] at hv; exact absurd hv (by simp)
    | some row =>
      rw [hrow] at hv
      simp only [Option.some_bind] at hv
      simp only [Option.map_some', Option.some_bind]
      rw [List.get?_map, hv]
      rfl
  · intro hnf
    show SummaryS.mk _ _ _ _ _ = _
    rw [maskedCells_empty hnf, maskedCells_empty hnf, maskedCells_empty hnf,
      maskedCells_empty hnf, maskedCells_empty hnf, columnCells_empty hnf]
    rfl
  · intro vals i j v h
    obtain ⟨hmem, hmax⟩ := firstArgmax_some h
    rw [mem_maskedCells] at hmem
    refine ⟨cellGet_validMask.mp hmem.1, hmem.2, ?_⟩
    intro i' j' u volt hu hvv hle
    exact hmax ((i', j'), u)
      (mem_maskedCells.mpr ⟨cellGet_validMask.mpr ⟨volt, hvv, hle⟩, hu⟩)
  · intro i j' v h
    obtain ⟨hmem, hmax⟩ := firstArgmax_some h
    rw [mem_columnCells] at hmem
    obtain ⟨rfl, hm, hv⟩ := hmem
    refine ⟨rfl, cellGet_validMask.mp hm, hv, ?_⟩
    intro i' u volt hu hvv hle
    exact hmax ((i', argminAbs current_range p.continuous_current), u)
      (mem_columnCells.mpr ⟨rfl, cellGet_validMask.mpr ⟨volt, hvv, hle⟩, hu⟩)
  · intro jx u hget
    cases current_range with
    | nil => exact absurd hget (by simp)
    | cons x xs =>
      have hfold : (enumFromN 0 (x :: xs)).foldl (argminAbsStep p.continuous_current)
          none = (enumFromN 1 xs).foldl (argminAbsStep p.continuous_current)
            (some (0, x)) := rfl
      obtain ⟨rr, hrr, hmem, hle, hall⟩ :=
        argmin_go p.continuous_current (enumFromN 1 xs) (0, x)
      have hsel : argminAbs (x :: xs) p.continuous_current = rr.1 := by
        rw [argminAbs, hfold, hrr]
      have hgetsel : (x :: xs).get? rr.1 = some rr.2 := by
        rcases hmem with hm | hm
        · have : (rr.1, rr.2) ∈ enumFromN 1 xs := by simpa using hm
          obtain ⟨k, hk, hgk⟩ := (mem_enumFromN xs 1 rr.1).mp this
          rw [hk, Nat.add_comm 1 k]
          simpa using hgk
        · rw [hm]
          rfl
      refine ⟨rr.2, by rw [hsel]; exact hgetsel, ?_⟩
      have hmemjx : (jx, u) ∈ enumFromN 0 (x :: xs) := mem_enumZero.mpr hget
      have : (jx, u) ∈ (0, x) :: enumFromN 1 xs := by
        simpa [enumFromN] using hmemjx
      rcases List.mem_cons.mp this with heq | hmem'
      · obtain ⟨h1, h2⟩ := Prod.ext_iff.mp heq
        dsimp only at h1 h2
        subst h2
        exact hle
      · exact hall (jx, u) hmem'

/-- Witness for C6_summary_analyzer: on a one-cell grid whose required
voltage exceeds the bus voltage, every summary field is absent. -/
theorem C6_summary_analyzer_witness :
    (∀ i j v, cellGet rNoFeas.voltage i j = some v → pAn.bus_voltage < v) ∧
    calculateSummary pAn [10] rNoFeas =
      { maxEffPoint := none, maxPowerPoint := none, maxTorquePoint := none,
        ratedPoint := none, envelopeMax := none } := by
  have hnf : ∀ i j v, cellGet rNoFeas.voltage i j = some v → pAn.bus_voltage < v := by
    intro i j v h
    cases i with
    | zero =>
      cases j with
      | zero =>
        simp only [rNoFeas, cellGet, List.get?, Option.some_bind] at h
        have : (50:ℚ) = v := by injection h
        rw [← this]
        norm_num [pAn]
      | succ j' => simp [rNoFeas, cellGet, List.get?] at h
    | succ i' => simp [rNoFeas, cellGet, List.get?] at h
  exact ⟨hnf, (C6_summary_analyzer pAn [10] rNoFeas).2.1 hnf⟩

/-- Witness for C2_thermal_loop_spec at mC2w, the default relax 2/5 and the
default budget of 50 iterations. -/
theorem C2_thermal_loop_spec_witness :
    0 < 50 ∧
    ((ModelDefaults.MAX_ITERATIONS = 50 ∧
      ModelDefaults.RELAXATION_FACTOR = 2 / 5 ∧
      ModelDefaults.CONVERGENCE_THRESHOLD = 1 / 20) ∧
     (∀ s : MState,
       (stepPoint mC2w (2/5) s).temp =
         s.temp + 2/5 * ((mC2w.ambient + (allLosses mC2w s fluxDummy).1 * rthOf mC2w)
           - s.temp) ∧
       (stepPoint mC2w (2/5) s).resistance =
         mC2w.r25 * (1 + 393 / 100000 * ((stepPoint mC2w (2/5) s).temp - 25))) ∧
     (convergedB mC2w (2/5) gC2w = true ↔
       ∀ row ∈ gC2w, ∀ s ∈ row,
         |(stepPoint mC2w (2/5) s).temp - s.temp| <
           ModelDefaults.CONVERGENCE_THRESHOLD) ∧
     (loopCount mC2w (2/5) 50 gC2w ≤ 50 ∧
      0 < loopCount mC2w (2/5) 50 gC2w ∧
      (runAux mC2w (2/5) 50 gC2w).1 =
        (stepGrid mC2w (2/5))^[loopCount mC2w (2/5) 50 gC2w] gC2w ∧
      (∀ k : ℕ, k + 1 < loopCount mC2w (2/5) 50 gC2w →
         convergedB mC2w (2/5) ((stepGrid mC2w (2/5))^[k] gC2w) = false) ∧
      (loopCount mC2w (2/5) 50 gC2w < 50 →
         convergedB mC2w (2/5)
           ((stepGrid mC2w (2/5))^[loopCount mC2w (2/5) 50 gC2w - 1] gC2w) = true))) :=
  ⟨by norm_num, C2_thermal_loop_spec mC2w (2/5) gC2w 50 (by norm_num)⟩

end PyQdd
